import Mathlib

/-!
# Trading Decision & Risk Engine — shallow embedding

A shallow embedding, in Lean 4, of the pure decision core of the
`polymarket-btc-5m-assistant` repository, together with theorems checking
the natural-language specification against it.

Modelling conventions, used uniformly below:

* JavaScript numbers are modelled as `ℚ`.  A value that may be `null`,
  `undefined` or non-finite (`NaN`/`±Infinity`) is modelled as `Option ℚ`;
  the source's `isNum(x)` guard corresponds to `Option.isSome`.
  Rational arithmetic is exact, so float rounding is abstracted away;
  none of the properties below concerns float rounding.
* Fields read from dynamic config/signal objects are `Option` fields of
  explicit structures; the source's `x ?? d` is `Option.getD` and the
  truthiness test `x && …` on a number (resp. string) is
  "`some` and nonzero" (resp. "`some` and nonempty").
* `Date.now()` and the wall clock readouts are passed as explicit
  arguments (`nowMs : ℚ`), exactly as the source's injectable `nowMs`
  parameter does for `evaluateExits`.
* ISO date strings (`entryTime`, `endDate`) are modelled by their parsed
  epoch-milliseconds value: `Option ℚ`, `none` standing for an absent or
  unparseable date.
* Human-readable blocker strings and exit-reason strings carry no logic
  beyond identity (and one `startsWith 'Max Loss'` test); they are
  modelled by inductive types with one constructor per distinct message,
  carrying the numeric parameters that the source interpolates into the
  message.  `ExitReason.maxLoss a` stands for the source string
  `Max Loss ($a)`.
-/

/-- One of the two mutually exclusive binary-market outcomes
(source: the `'UP' | 'DOWN'` strings). -/
inductive Side where
  | UP : Side
  | DOWN : Side
deriving DecidableEq, Repr

/-- Truthiness of a nullable JS number: non-null and nonzero
(`NaN` is already `none` in the model). -/
def truthyNum (x : Option ℚ) : Bool :=
  match x with
  | some v => v ≠ 0
  | none => false

/-- Truthiness of a nullable JS string: non-null and nonempty. -/
def truthyStr (x : Option String) : Bool :=
  match x with
  | some s => s ≠ ""
  | none => false

/-- The merged trading config object (`paperTrading` keys, possibly
overlaid by `liveTrading`).  Every knob the embedded functions read is an
`Option` field: `none` models an absent key. -/
structure Config where
  -- sizing (src/unnamed/part_012 computeTradeSize)
  stakePct : Option ℚ := none
  contractSize : Option ℚ := none
  minTradeUsd : Option ℚ := none
  maxTradeUsd : Option ℚ := none
  -- dynamic stop loss (src/unnamed/part_011 computeMaxLossUsd)
  dynamicStopLossEnabled : Option Bool := none
  dynamicStopLossPct : Option ℚ := none
  minMaxLossUsd : Option ℚ := none
  maxMaxLossUsd : Option ℚ := none
  maxLossUsdPerTrade : Option ℚ := none
  -- exit evaluation (src/unnamed/part_011 evaluateExits)
  exitBeforeEndMinutes : Option ℚ := none
  exitFlipMinProb : Option ℚ := none
  exitFlipMargin : Option ℚ := none
  exitFlipMinHoldSeconds : Option ℚ := none
  stopLossPct : Option ℚ := none
  minLiquidity : Option ℚ := none
  maxLossGraceEnabled : Option Bool := none
  maxLossGraceSeconds : Option ℚ := none
  maxLossRecoverUsd : Option ℚ := none
  maxLossGraceRequireModelSupport : Option Bool := none
  takeProfitPrice : Option ℚ := none
  trailingTakeProfitEnabled : Option Bool := none
  trailingStartUsd : Option ℚ := none
  trailingDrawdownUsd : Option ℚ := none
  takeProfitImmediate : Option Bool := none
  takeProfitPnlUsd : Option ℚ := none
  loserMaxHoldSeconds : Option ℚ := none
  stopLossEnabled : Option Bool := none
  -- entry gate (src/unnamed/part_010 computeEntryBlockers)
  recGating : Option String := none
  noEntryFinalMinutes : Option ℚ := none
  minCandlesForEntry : Option ℚ := none
  lossCooldownSeconds : Option ℚ := none
  winCooldownSeconds : Option ℚ := none
  skipMarketAfterMaxLoss : Option Bool := none
  weekdaysOnly : Option Bool := none
  allowSundayAfterHour : Option ℚ := none
  noEntryAfterFridayHour : Option ℚ := none
  weekendTighteningEnabled : Option Bool := none
  weekendMinLiquidity : Option ℚ := none
  maxSpread : Option ℚ := none
  weekendMaxSpread : Option ℚ := none
  minMarketVolumeNum : Option ℚ := none
  minVolumeRecent : Option ℚ := none
  minVolumeRatioCfg : Option ℚ := none
  minModelMaxProb : Option ℚ := none
  weekendMinModelMaxProb : Option ℚ := none
  minRangePct20 : Option ℚ := none
  weekendMinRangePct20 : Option ℚ := none
  minBtcImpulsePct1m : Option ℚ := none
  noTradeRsiMin : Option ℚ := none
  noTradeRsiMax : Option ℚ := none
  minPolyPrice : Option ℚ := none
  maxPolyPrice : Option ℚ := none
  maxEntryPolyPrice : Option ℚ := none
  minOppositePolyPrice : Option ℚ := none
  minProbEarly : Option ℚ := none
  edgeEarly : Option ℚ := none
  minProbMid : Option ℚ := none
  edgeMid : Option ℚ := none
  minProbLate : Option ℚ := none
  edgeLate : Option ℚ := none
  weekendProbBoost : Option ℚ := none
  weekendEdgeBoost : Option ℚ := none
  midProbBoost : Option ℚ := none
  midEdgeBoost : Option ℚ := none
  inferredProbBoost : Option ℚ := none
  inferredEdgeBoost : Option ℚ := none
  circuitBreakerConsecutiveLosses : Option ℚ := none
  circuitBreakerCooldownMs : Option ℚ := none
  maxDailyLossUsd : Option ℚ := none

-- ─── Sizing (src/unnamed/part_012, computeTradeSize) ───────────────

/-- `Math.floor(x * 100) / 100` — round down to the nearest cent. -/
def floorCent (x : ℚ) : ℚ :=
  (⌊x * 100⌋ : ℚ) / 100

/-- The pre-clamp size of `computeTradeSize`: dynamic
(`balance * stakePct` when `stakePct > 0`) or the fixed contract size
(default 100). -/
def baseTradeSize (config : Config) (bal : ℚ) : ℚ :=
  let useDynamic := match config.stakePct with
    | some p => decide (0 < p)
    | none => false
  if useDynamic then bal * config.stakePct.getD 0
  else config.contractSize.getD 100

/-- The clamp chain of `computeTradeSize`: clamp to
`[minTradeUsd, maxTradeUsd]` (no upper clamp when `maxTradeUsd` is
absent, i.e. `?? Infinity`), cap at the balance, floor to the cent. -/
def cappedTradeSize (config : Config) (bal : ℚ) : ℚ :=
  let size1 : ℚ :=
    match config.maxTradeUsd with
    | some m => min m (baseTradeSize config bal)
    | none => baseTradeSize config bal
  let size2 := max (config.minTradeUsd.getD 0) size1
  let size3 := min size2 bal
  floorCent size3

/-- `computeTradeSize(balance, config)` from `src/unnamed/part_012`.

`balance : Option ℚ` models the JS number argument, `none` standing for a
non-finite value (so `!isNum(balance)` is `balance = none`);
`config.maxTradeUsd ?? Number.POSITIVE_INFINITY` is modelled by skipping
the upper clamp when `maxTradeUsd` is absent. -/
def computeTradeSize (balance : Option ℚ) (config : Config) : ℚ :=
  match balance with
  | none => 0
  | some bal =>
    if bal ≤ 0 then 0
    else
      let size4 := cappedTradeSize config bal
      if 0 < size4 then size4 else 0

-- ─── Dynamic max loss + PnL cap (src/unnamed/part_011) ─────────────

/-- `computeMaxLossUsd(contractSize, config)` from `src/unnamed/part_011`.

When dynamic stop loss is enabled and `contractSize` is a positive number,
the max loss scales with contract size, clamped to
`[minMaxLossUsd, maxMaxLossUsd]`; otherwise it falls back to the fixed
`maxLossUsdPerTrade` (which may be absent: `none`). -/
def computeMaxLossUsd (contractSize : Option ℚ) (config : Config) : Option ℚ :=
  let dynamicEnabled := config.dynamicStopLossEnabled.getD false
  match contractSize with
  | some cs =>
    if dynamicEnabled ∧ 0 < cs then
      let pct := config.dynamicStopLossPct.getD (1/5)
      let raw := cs * pct
      let floor := config.minMaxLossUsd.getD 8
      let ceiling := config.maxMaxLossUsd.getD 40
      some (max floor (min ceiling raw))
    else
      config.maxLossUsdPerTrade
  | none => config.maxLossUsdPerTrade

/-- Result of `capPnl`: the (possibly capped) realized PnL and the
(possibly adjusted) exit price. -/
structure CapResult where
  pnl : ℚ
  exitPrice : ℚ
deriving DecidableEq, Repr

/-- `capPnl(rawPnl, contractSize, shares, exitPrice, config)` from
`src/unnamed/part_011`.

All four numeric arguments are finite in every call site (`rawPnl` is
computed from finite values and guarded by `isNum` in the source), so they
are modelled as plain `ℚ`; `contractSize` is passed to `computeMaxLossUsd`
as `some contractSize`. -/
def capPnl (rawPnl contractSize shares exitPrice : ℚ) (config : Config) :
    CapResult :=
  match computeMaxLossUsd (some contractSize) config with
  | some maxLossUsd =>
    if 0 < maxLossUsd ∧ rawPnl < -|maxLossUsd| then
      let cappedPnl := -|maxLossUsd|
      let cappedValue := contractSize + cappedPnl
      let impliedExit := if 0 < shares then cappedValue / shares else exitPrice
      if 0 < impliedExit then
        { pnl := cappedPnl, exitPrice := impliedExit }
      else
        { pnl := cappedPnl, exitPrice := exitPrice }
    else
      { pnl := rawPnl, exitPrice := exitPrice }
  | none => { pnl := rawPnl, exitPrice := exitPrice }

-- ─── Signals, positions, grace state (src/unnamed/part_011) ────────

/-- The recommendation part of the signals bundle (`signals.rec`;
`rec` itself is reserved by Lean for recursors, hence `recOpt` below). -/
structure Rec where
  action : Option String := none
  side : Option Side := none
  phase : Option String := none
  edge : Option ℚ := none

/-- `signals.market`. -/
structure Market where
  endDateMs : Option ℚ := none
  slug : Option String := none
  liquidityNum : Option ℚ := none
  volumeNum : Option ℚ := none

/-- `signals.polyMarketSnapshot`, flattened to the fields the decision
core reads (`market.endDate` and the per-side orderbook summaries). -/
structure PolySnapshot where
  marketEndDateMs : Option ℚ := none
  obUpBestAsk : Option ℚ := none
  obUpBestBid : Option ℚ := none
  obUpSpread : Option ℚ := none
  obDownBestAsk : Option ℚ := none
  obDownBestBid : Option ℚ := none
  obDownSpread : Option ℚ := none

/-- `signals.indicators`. -/
structure Indicators where
  rsiNow : Option ℚ := none
  vwapNow : Option ℚ := none
  vwapSlope : Option ℚ := none
  macdHist : Option ℚ := none
  heikenColor : Option String := none
  heikenCount : Option ℚ := none
  volumeRecent : Option ℚ := none
  volumeAvg : Option ℚ := none
  rangePct20 : Option ℚ := none

/-- `signals.spot`. -/
structure Spot where
  delta1mPct : Option ℚ := none

/-- The unified signals bundle, restricted to the fields read by
`computeEntryBlockers` and `evaluateExits`.  Immutable for one tick.
`recOpt` models `signals.rec`. -/
structure Signals where
  recOpt : Option Rec := none
  market : Option Market := none
  poly : Option PolySnapshot := none
  indicators : Option Indicators := none
  spot : Option Spot := none
  modelUp : Option ℚ := none
  modelDown : Option ℚ := none
  timeLeftMin : Option ℚ := none
  polyPricesCentsUp : Option ℚ := none
  polyPricesCentsDown : Option ℚ := none
  polyPricesUp : Option ℚ := none
  polyPricesDown : Option ℚ := none

/-- Unified view of an open position (`PositionView` in the domain
typedefs), restricted to the fields read by `evaluateExits`.
`entryTimeMs` is the parsed epoch value of the `entryTime` ISO string
(`none`: absent or unparseable). -/
structure PositionView where
  side : Side
  marketSlug : Option String := none
  shares : Option ℚ := none
  contractSize : Option ℚ := none
  mark : Option ℚ := none
  unrealizedPnl : Option ℚ := none
  maxUnrealizedPnl : Option ℚ := none
  entryTimeMs : Option ℚ := none
  lastTradeTime : Option ℚ := none

/-- Per-position grace-window state (`GraceState` in
`src/unnamed/part_011`).  The source reads it through optional chaining
(`graceState?.used`), and a `null` grace state behaves exactly like
`(breachAtMs: null, used: false)`, so the model takes the record
directly. -/
structure GraceState where
  breachAtMs : Option ℚ := none
  used : Bool := false
deriving DecidableEq, Repr

/-- Grace-timer action for the engine (`'START_GRACE' | 'CLEAR_GRACE'`). -/
inductive GraceAction where
  | startGrace : GraceAction
  | clearGrace : GraceAction
deriving DecidableEq, Repr

/-- Exit-decision reasons.  Each constructor stands for one of the
`reason` strings the source builds, carrying the numbers interpolated
into the message; `maxLoss a` stands for the string `Max Loss ($a)`
(which starts with `Max Loss`). -/
inductive ExitReason where
  | marketRollover : ExitReason
  | preSettlement : ExitReason
  | maxLoss (amount : ℚ) : ExitReason
  | takeProfitPrice (tpPrice : ℚ) : ExitReason
  | trailingTP (maxU dd : ℚ) : ExitReason
  | takeProfitImm : ExitReason
  | timeStop : ExitReason
  | stopLoss : ExitReason
deriving DecidableEq, Repr

/-- Full exit evaluation result (`ExitResult` in `src/unnamed/part_011`). -/
structure ExitResult where
  decision : Option ExitReason
  graceAction : Option GraceAction
  pnlNow : Option ℚ
  opposingMoreLikely : Bool
deriving DecidableEq, Repr

/-- `timeLeftForEntry`/`timeLeftForExit`: minutes to settlement from the
end date (market's, else snapshot's), falling back to the candle-window
`signals.timeLeftMin`.  Shared verbatim by the entry gate and the exit
evaluator. -/
def timeLeftMinutes (signals : Signals) (now : ℚ) : Option ℚ :=
  let endDateMs : Option ℚ :=
    (signals.market.bind Market.endDateMs).orElse
      (fun _ => signals.poly.bind PolySnapshot.marketEndDateMs)
  (endDateMs.map (fun t => (t - now) / 60000)).orElse
    (fun _ => signals.timeLeftMin)

/-- Trade age in seconds: from the parsed entry time when positive, else
from `lastTradeTime` (epoch seconds), else unknown. -/
def tradeAgeSec (position : PositionView) (now : ℚ) : Option ℚ :=
  let fallback : Option ℚ :=
    match position.lastTradeTime with
    | some t => if 0 < t then some ((⌊now / 1000⌋ : ℚ) - t) else none
    | none => none
  match position.entryTimeMs with
  | some entryMs =>
    if 0 < entryMs then some ((now - entryMs) / 1000) else fallback
  | none => fallback

/-- Exit condition 1: market rollover — the position's market slug and
the signal's slug are both present and differ. -/
def exitRollover (position : PositionView) (signals : Signals) : Bool :=
  truthyStr position.marketSlug &&
    truthyStr (signals.market.bind Market.slug) &&
    decide (position.marketSlug ≠ signals.market.bind Market.slug)

/-- Exit condition 2: pre-settlement — time to settlement is a number
below the configured floor. -/
def exitPreSettlement (signals : Signals) (config : Config) (now : ℚ) :
    Bool :=
  match timeLeftMinutes signals now with
  | some t => decide (t < config.exitBeforeEndMinutes.getD (1/2))
  | none => false

/-- Opposing-side flip detection (used by the conditional stop loss and
returned for caller observability). -/
def opposingMoreLikelyOf (position : PositionView) (signals : Signals)
    (config : Config) (now : ℚ) : Bool :=
  let minFlipProb := config.exitFlipMinProb.getD (11/20)
  let flipMargin := config.exitFlipMargin.getD (3/100)
  let minFlipHoldSec := config.exitFlipMinHoldSeconds.getD 0
  let holdOk : Bool := match tradeAgeSec position now with
    | none => true
    | some a => decide (minFlipHoldSec ≤ a)
  if holdOk then
    match signals.modelUp, signals.modelDown with
    | some u, some d =>
      if position.side = Side.UP then
        decide (minFlipProb ≤ d ∧ u + flipMargin ≤ d)
      else
        decide (minFlipProb ≤ u ∧ d + flipMargin ≤ u)
    | _, _ => false
  else false

/-- Percentage-based stop-loss breach test. -/
def stopLossHitOf (position : PositionView) (config : Config) : Bool :=
  match position.unrealizedPnl, position.contractSize with
  | some p, some cs =>
    if 0 < cs then
      decide (p ≤ -|cs * config.stopLossPct.getD (1/4)|)
    else false
  | _, _ => false

/-- Low-liquidity test used for grace-window eligibility. -/
def isLowLiquidityOf (signals : Signals) (config : Config) : Bool :=
  let minLiq := config.minLiquidity.getD 0
  if 0 < minLiq then
    match signals.market.bind Market.liquidityNum with
    | some l => decide (l < minLiq)
    | none => true
  else false

/-- Exit condition 3: the max-loss block with the grace-window
sub-state-machine.  Returns the grace action to report and, when the
source `return`s inside the block, the `maxLossAbs` amount of the
`Max Loss ($…)` decision (`none`: fall through to the later
conditions). -/
def maxLossStep (position : PositionView) (signals : Signals)
    (config : Config) (graceState : GraceState) (now : ℚ) :
    Option GraceAction × Option ℚ :=
  match position.unrealizedPnl, computeMaxLossUsd position.contractSize config with
  | some p, some ml =>
    if 0 < ml then
      let maxLossAbs := |ml|
      let breached := decide (p ≤ -maxLossAbs)
      let sideProb :=
        if position.side = Side.UP then signals.modelUp else signals.modelDown
      let oppProb :=
        if position.side = Side.UP then signals.modelDown else signals.modelUp
      let modelSupports : Bool :=
        match sideProb, oppProb with
        | some sp, some op => decide (11/20 ≤ sp ∧ op ≤ sp)
        | _, _ => false
      let exitBeforeEndMin := config.exitBeforeEndMinutes.getD (1/2)
      let okForGrace : Bool :=
        config.maxLossGraceEnabled.getD false &&
          decide (0 < config.maxLossGraceSeconds.getD 0) &&
          (match timeLeftMinutes signals now with
           | some t => decide (exitBeforeEndMin + 1/4 ≤ t)
           | none => true) &&
          !isLowLiquidityOf signals config &&
          (!config.maxLossGraceRequireModelSupport.getD false || modelSupports)
      let recoverThresh : ℚ :=
        match config.maxLossRecoverUsd with
        | some r => if 0 < r then -|r| else -maxLossAbs + 1
        | none => -maxLossAbs + 1
      let ga0 : Option GraceAction :=
        if truthyNum graceState.breachAtMs && decide (recoverThresh < p)
        then some GraceAction.clearGrace
        else none
      if breached then
        if okForGrace then
          if !graceState.used && !truthyNum graceState.breachAtMs then
            (some GraceAction.startGrace, none)
          else if truthyNum graceState.breachAtMs then
            if config.maxLossGraceSeconds.getD 0 * 1000 ≤
                now - graceState.breachAtMs.getD 0 then
              (ga0, some maxLossAbs)
            else (ga0, none)
          else (ga0, some maxLossAbs)
        else (ga0, some maxLossAbs)
      else (ga0, none)
    else (none, none)
  | _, _ => (none, none)

/-- `evaluateExits(position, signals, config, graceState, nowMs)` from
`src/unnamed/part_011`: evaluate all exit conditions for one position in
strict priority order, the first match returning immediately.  The
max-loss block both sets `graceAction` and possibly decides an exit
(`maxLossStep`); after it, the remaining conditions run with the
reported grace action, exactly as the sequential source does. -/
def evaluateExits (position : Option PositionView) (signals : Signals)
    (config : Config) (graceState : GraceState) (nowMs : ℚ) : ExitResult :=
  let now := nowMs
  match position with
  | none =>
    { decision := none, graceAction := none, pnlNow := none,
      opposingMoreLikely := false }
  | some position =>
    let pnlNow := position.unrealizedPnl
    let mark := position.mark
    let base : ExitResult :=
      { decision := none, graceAction := none, pnlNow := pnlNow,
        opposingMoreLikely := opposingMoreLikelyOf position signals config now }
    -- 1. Market Rollover
    if exitRollover position signals then
      { base with decision := some ExitReason.marketRollover }
    else
    -- 2. Pre-settlement exit
    if exitPreSettlement signals config now then
      { base with decision := some ExitReason.preSettlement }
    else
    -- 3. Max loss with grace window
    let step3 := maxLossStep position signals config graceState now
    match step3.2 with
    | some amount =>
      { base with graceAction := step3.1,
                  decision := some (ExitReason.maxLoss amount) }
    | none =>
    let base := { base with graceAction := step3.1 }
    -- 4. High-price take-profit
    let cond4 : Bool := match config.takeProfitPrice, mark with
      | some tp, some mk => decide (tp ≤ mk)
      | _, _ => false
    if cond4 then
      { base with
          decision := some (ExitReason.takeProfitPrice
            (config.takeProfitPrice.getD 0)) }
    else
    -- 5. Trailing take-profit
    let trailingEnabled := config.trailingTakeProfitEnabled.getD false
    let start := config.trailingStartUsd.getD 0
    let dd := config.trailingDrawdownUsd.getD 0
    let cond5 : Bool := match pnlNow, position.maxUnrealizedPnl with
      | some p, some mu =>
        trailingEnabled &&
          decide (0 < start ∧ 0 < dd ∧ start ≤ mu ∧ p ≤ mu - dd)
      | _, _ => false
    if cond5 then
      { base with
          decision := some (ExitReason.trailingTP
            (position.maxUnrealizedPnl.getD 0) dd) }
    else
    -- 6. Immediate take-profit (only when trailing TP is disabled)
    let tpImm := config.takeProfitImmediate.getD false
    let tpUsd := config.takeProfitPnlUsd.getD 0
    let cond6 : Bool := match pnlNow with
      | some p => !trailingEnabled && tpImm && decide (0 ≤ tpUsd ∧ tpUsd ≤ p)
      | none => false
    if cond6 then
      { base with decision := some ExitReason.takeProfitImm }
    else
    -- 7. Time stop
    let loserMaxHold := config.loserMaxHoldSeconds.getD 0
    let cond7 : Bool := match pnlNow, tradeAgeSec position now with
      | some p, some a =>
        decide (0 < loserMaxHold ∧ loserMaxHold ≤ a ∧ p < 0)
      | _, _ => false
    if cond7 then
      { base with decision := some ExitReason.timeStop }
    else
    -- 8. Conditional stop loss
    if config.stopLossEnabled.getD false && stopLossHitOf position config &&
        opposingMoreLikelyOf position signals config now
    then { base with decision := some ExitReason.stopLoss }
    else base


-- ─── TradingState (src/src/application/TradingState.js) ────────────

/-- Mutable per-session trading state, embedded as an immutable record
threaded through its methods.  The per-position `Map`s are modelled as
functions `String → Option _` (`Map.get` returning `undefined` is
`none`).  `Date.now()` becomes an explicit `nowMs` argument of the
methods that read the clock. -/
structure TradingState where
  lastLossAtMs : Option ℚ := none
  lastWinAtMs : Option ℚ := none
  lastFlipAtMs : Option ℚ := none
  skipMarketUntilNextSlug : Option String := none
  hasOpenPosition : Bool := false
  mfeByPos : String → Option ℚ := fun _ => none
  maeByPos : String → Option ℚ := fun _ => none
  graceByPos : String → Option GraceState := fun _ => none
  todayRealizedPnl : ℚ := 0
  consecutiveLosses : ℚ := 0
  circuitBreakerTrippedAtMs : Option ℚ := none

/-- The freshly constructed state (the `TradingState` constructor). -/
def TradingState.init : TradingState := {}

/-- `trackMFE(posId, unrealizedPnl)`: maximum favorable excursion,
`max(prev ?? pnl, pnl)`. -/
def TradingState.trackMFE (s : TradingState) (posId : String)
    (unrealizedPnl : ℚ) : TradingState :=
  let prev := (s.mfeByPos posId).getD unrealizedPnl
  { s with mfeByPos := fun id =>
      if id = posId then some (max prev unrealizedPnl) else s.mfeByPos id }

/-- `trackMAE(posId, unrealizedPnl)`: maximum adverse excursion,
`min(prev ?? pnl, pnl)`. -/
def TradingState.trackMAE (s : TradingState) (posId : String)
    (unrealizedPnl : ℚ) : TradingState :=
  let prev := (s.maeByPos posId).getD unrealizedPnl
  { s with maeByPos := fun id =>
      if id = posId then some (min prev unrealizedPnl) else s.maeByPos id }

/-- `getMaxUnrealized(posId)`. -/
def TradingState.getMaxUnrealized (s : TradingState) (posId : String) :
    Option ℚ := s.mfeByPos posId

/-- `getMinUnrealized(posId)`. -/
def TradingState.getMinUnrealized (s : TradingState) (posId : String) :
    Option ℚ := s.maeByPos posId

/-- `getGraceState(posId)`: the stored state or the fresh default. -/
def TradingState.getGraceState (s : TradingState) (posId : String) :
    GraceState :=
  (s.graceByPos posId).getD { breachAtMs := none, used := false }

/-- `startGrace(posId)`: start the grace timer; `used` becomes true. -/
def TradingState.startGrace (s : TradingState) (posId : String)
    (nowMs : ℚ) : TradingState :=
  { s with graceByPos := fun id =>
      if id = posId then some { breachAtMs := some nowMs, used := true }
      else s.graceByPos id }

/-- `clearGrace(posId)`: clear the timer; `used` stays true — grace can
only fire once per position. -/
def TradingState.clearGrace (s : TradingState) (posId : String) :
    TradingState :=
  match s.graceByPos posId with
  | some gs =>
    { s with graceByPos := fun id =>
        if id = posId then some { gs with breachAtMs := none }
        else s.graceByPos id }
  | none => s

/-- `clearPosition(posId)`: drop all tracking for a closed position. -/
def TradingState.clearPosition (s : TradingState) (posId : String) :
    TradingState :=
  { s with
      mfeByPos := fun id => if id = posId then none else s.mfeByPos id,
      maeByPos := fun id => if id = posId then none else s.maeByPos id,
      graceByPos := fun id => if id = posId then none else s.graceByPos id }

/-- `updateDailyPnl(pnl)`: accumulate finite realized PnL. -/
def TradingState.updateDailyPnl (s : TradingState) (pnl : Option ℚ) :
    TradingState :=
  match pnl with
  | some p => { s with todayRealizedPnl := s.todayRealizedPnl + p }
  | none => s

/-- `recordExit(pnl, marketSlug, reason, skipAfterMaxLoss)` — record an
exit for cooldown/skip tracking.  `pnl : Option ℚ` models the
`Number.isFinite(pnl)` guard (`none`: non-finite); a loss stamps the loss
cooldown and increments the consecutive-loss counter, any non-loss stamps
the win cooldown and resets the counter. -/
def TradingState.recordExit (s : TradingState) (pnl : Option ℚ)
    (marketSlug : Option String) (reason : String)
    (skipAfterMaxLoss : Bool) (nowMs : ℚ) : TradingState :=
  let s1 :=
    match pnl with
    | some p =>
      if p < 0 then
        { s with lastLossAtMs := some nowMs,
                 consecutiveLosses := s.consecutiveLosses + 1 }
      else
        { s with lastWinAtMs := some nowMs, consecutiveLosses := 0 }
    | none => s
  let s2 :=
    if reason.startsWith "Max Loss" && truthyStr marketSlug &&
        skipAfterMaxLoss then
      { s1 with skipMarketUntilNextSlug := marketSlug }
    else s1
  s2.updateDailyPnl pnl

/-- Result of `checkCircuitBreaker`. -/
structure CircuitBreakerResult where
  tripped : Bool
  remaining : ℚ
deriving DecidableEq, Repr

/-- `checkCircuitBreaker(maxConsecutive, cooldownMs)`: returns the
tripped/remaining pair and the updated state (the source mutates `this`).
Already-tripped state stays tripped until the cooldown elapses, then
resets the loss counter; an untripped state trips once
`consecutiveLosses ≥ maxConsecutive`. -/
def TradingState.checkCircuitBreaker (s : TradingState)
    (maxConsecutive cooldownMs nowMs : ℚ) :
    CircuitBreakerResult × TradingState :=
  let continueWith : TradingState → CircuitBreakerResult × TradingState :=
    fun s' =>
      if maxConsecutive ≤ s'.consecutiveLosses then
        ({ tripped := true, remaining := cooldownMs },
         { s' with circuitBreakerTrippedAtMs := some nowMs })
      else
        ({ tripped := false, remaining := 0 }, s')
  match s.circuitBreakerTrippedAtMs with
  | some trippedAt =>
    let elapsed := nowMs - trippedAt
    if elapsed < cooldownMs then
      ({ tripped := true, remaining := cooldownMs - elapsed }, s)
    else
      continueWith
        { s with circuitBreakerTrippedAtMs := none, consecutiveLosses := 0 }
  | none => continueWith s

-- ─── PaperExecutor (src/src/infrastructure/executors/LiveExecutor.js) ─

/-- Order direction for the fill simulation (`'BUY' | 'SELL'`). -/
inductive Direction where
  | buy : Direction
  | sell : Direction
deriving DecidableEq, Repr

/-- One orderbook price level, with `price`/`size` already passed through
`Number(...)`.  A level whose parsed price or size is not a positive
finite number is skipped by the walk; the model folds the non-finite
cases into the non-positive guard. -/
structure BookLevel where
  price : ℚ
  size : ℚ
deriving DecidableEq, Repr

/-- A live orderbook snapshot as returned by `fetchOrderBook`. -/
structure OrderBook where
  asks : List BookLevel := []
  bids : List BookLevel := []
deriving DecidableEq, Repr

/-- Successful fill simulation result. -/
structure FillResult where
  vwapPrice : ℚ
  totalShares : ℚ
  levelsConsumed : ℕ
deriving DecidableEq, Repr

/-- The side of the book a fill direction walks: asks for a buy, bids
for a sell. -/
def sideLevels (b : OrderBook) (direction : Direction) : List BookLevel :=
  match direction with
  | Direction.buy => b.asks
  | Direction.sell => b.bids

/-- The sort step of `_simulateFill`: asks ascending by price for a buy,
bids descending by price for a sell (a stable sort, as `Array.sort`
is). -/
def sortLevels (direction : Direction) (levels : List BookLevel) :
    List BookLevel :=
  match direction with
  | Direction.buy => levels.mergeSort (fun a b => decide (a.price ≤ b.price))
  | Direction.sell => levels.mergeSort (fun a b => decide (b.price ≤ a.price))

/-- Accumulator of the level walk in `_simulateFill`. -/
structure FillState where
  remainingUsd : ℚ
  totalShares : ℚ
  totalCost : ℚ
  levelsConsumed : ℕ
deriving DecidableEq, Repr

/-- One iteration of the `for (const level of sorted)` loop of
`_simulateFill`.  The source's `break` once `remainingUsd <= 0` is
modelled by the first guard: after the notional is exhausted no later
level changes the accumulator, which is the same fold. -/
def fillStep (acc : FillState) (level : BookLevel) : FillState :=
  if acc.remainingUsd ≤ 0 then acc
  else if level.price ≤ 0 ∨ level.size ≤ 0 then acc
  else
    let levelNotional := level.price * level.size
    let fillUsd := min acc.remainingUsd levelNotional
    let fillShares := fillUsd / level.price
    { remainingUsd := acc.remainingUsd - fillUsd,
      totalShares := acc.totalShares + fillShares,
      totalCost := acc.totalCost + fillUsd,
      levelsConsumed := acc.levelsConsumed + 1 }

/-- The walk of `_simulateFill` over the already-sorted levels. -/
def walkLevels (levels : List BookLevel) (notionalUsd : ℚ) : FillState :=
  levels.foldl fillStep
    { remainingUsd := notionalUsd, totalShares := 0, totalCost := 0,
      levelsConsumed := 0 }

/-- `PaperExecutor._simulateFill(tokenId, notionalUsd, direction)` from
`src/src/infrastructure/executors/LiveExecutor.js`: simulate an order
fill by walking the live orderbook.  The orderbook fetch is the only
I/O; it is passed in as `book` (`none`: no book / fetch failed). -/
def simulateFill (book : Option OrderBook) (notionalUsd : ℚ)
    (direction : Direction) : Option FillResult :=
  match book with
  | none => none
  | some b =>
    let levels := sideLevels b direction
    if levels.isEmpty then none
    else
      let final := walkLevels (sortLevels direction levels) notionalUsd
      if final.totalShares ≤ 0 ∨ final.totalCost ≤ 0 then none
      else some
        { vwapPrice := final.totalCost / final.totalShares,
          totalShares := final.totalShares,
          levelsConsumed := final.levelsConsumed }

/-- The single-slot open-trade record the paper executor keeps (only the
fields `closePosition` reads).  `entryPrice` and `contractSize` are
numbers in every ledger record the executor writes; `shares` is read
through both a truthiness test and an `isNum` guard, hence `Option ℚ`. -/
structure Trade where
  entryPrice : ℚ
  shares : Option ℚ := none
  contractSize : ℚ
  tokenID : Option String := none

/-- A close request (`CloseRequest`): the fields
`PaperExecutor.closePosition` destructures. -/
structure CloseRequest where
  tradeId : Option String := none
  side : Option Side := none
  shares : ℚ := 0
  reason : String := ""
  tokenID : Option String := none

/-- The close reason returned by `closePosition`: either the caller's
reason echoed back, or the override string `Max Loss ($a)` used when the
loss was actually capped. -/
inductive CloseReason where
  | given (r : String) : CloseReason
  | maxLossOverride (amount : ℚ) : CloseReason
deriving DecidableEq, Repr

/-- Result of `closePosition`. -/
structure CloseResult where
  closed : Bool
  exitPrice : ℚ
  pnl : ℚ
  reason : CloseReason
deriving DecidableEq, Repr

/-- `Number(pnl.toFixed(2))` — round to the nearest cent (ties as JS
formats them are abstracted to round-half-up; no property below depends
on the tie behaviour). -/
def roundCent (x : ℚ) : ℚ :=
  (round (x * 100) : ℚ) / 100

/-- `PaperExecutor.closePosition(request)` from
`src/src/infrastructure/executors/LiveExecutor.js` (lines 611–683).

The executor's `this.openTrade` slot and the two I/O reads are explicit
arguments: `book` is the orderbook `_simulateFill` would fetch and
`clobPrice` the `fetchClobPrice` fallback result (`none` covering both a
failed call and a non-numeric answer).  The function never throws on the
no-open-trade path: it returns a plain result with `closed := false`. -/
def PaperExecutor.closePosition (openTrade : Option Trade)
    (request : CloseRequest) (book : Option OrderBook)
    (clobPrice : Option ℚ) (config : Config) : CloseResult :=
  match openTrade with
  | none =>
    { closed := false, exitPrice := 0, pnl := 0,
      reason := CloseReason.given request.reason }
  | some trade =>
    let exitTokenId : Option String :=
      if truthyStr request.tokenID then request.tokenID else trade.tokenID
    let exitPrice0 : Option ℚ :=
      if truthyStr exitTokenId then
        let estShares : ℚ := match trade.shares with
          | some sh => if sh ≠ 0 then sh else request.shares
          | none => request.shares
        let estEntry : ℚ :=
          if trade.entryPrice ≠ 0 then trade.entryPrice else 1/2
        let estNotional := estShares * estEntry
        (simulateFill book estNotional Direction.sell).map FillResult.vwapPrice
      else none
    let exitPrice1 : Option ℚ :=
      match exitPrice0 with
      | some v => some v
      | none => if truthyStr exitTokenId then clobPrice else none
    let exitPriceF : ℚ := exitPrice1.getD trade.entryPrice
    let tradeShares : ℚ := match trade.shares with
      | some sh => sh
      | none =>
        if 0 < trade.entryPrice then trade.contractSize / trade.entryPrice
        else 0
    let valueNow := tradeShares * exitPriceF
    let rawPnl := valueNow - trade.contractSize
    let cap := capPnl rawPnl trade.contractSize tradeShares exitPriceF config
    let maxLossAbs := |config.maxLossUsdPerTrade.getD 0|
    let finalReason : CloseReason :=
      if rawPnl < -maxLossAbs ∧ cap.pnl ≠ rawPnl then
        CloseReason.maxLossOverride maxLossAbs
      else CloseReason.given request.reason
    { closed := true, exitPrice := cap.exitPrice, pnl := roundCent cap.pnl,
      reason := finalReason }

-- ─── EntryGate (src/unnamed/part_010) ──────────────────────────────

/-- Pacific-time wall clock readout (`getPacificTimeInfo()`), made an
explicit argument: the weekday short name and the parsed hour (`none`
when `Number(...)` yields NaN).  `isWeekend` is derived from `wd`
exactly as the source derives it. -/
structure PacificTime where
  wd : String := "Mon"
  hour : Option ℚ := none

/-- `isWeekend` as computed by `getPacificTimeInfo`. -/
def PacificTime.isWeekend (pt : PacificTime) : Bool :=
  pt.wd = "Sat" || pt.wd = "Sun"

/-- Result of `computeEffectiveThresholds`. -/
structure EffectiveThresholds where
  minProb : ℚ
  edgeThreshold : ℚ
deriving DecidableEq, Repr

/-- `computeEffectiveThresholds(config, isWeekend, phase, sideInferred,
strictRec)` from `src/unnamed/part_010`: phase-base values plus the
additive weekend / MID / inferred-side boosts. -/
def computeEffectiveThresholds (config : Config) (isWeekend : Bool)
    (phase : String) (sideInferred strictRec : Bool) :
    EffectiveThresholds :=
  let base : EffectiveThresholds :=
    if phase = "EARLY" then
      { minProb := config.minProbEarly.getD (13/25),
        edgeThreshold := config.edgeEarly.getD (1/50) }
    else if phase = "MID" then
      { minProb := config.minProbMid.getD (53/100),
        edgeThreshold := config.edgeMid.getD (3/100) }
    else
      { minProb := config.minProbLate.getD (11/20),
        edgeThreshold := config.edgeLate.getD (1/20) }
  let weekendTightening :=
    config.weekendTighteningEnabled.getD true && isWeekend
  let t1 : EffectiveThresholds :=
    if weekendTightening then
      { minProb := base.minProb + config.weekendProbBoost.getD 0,
        edgeThreshold :=
          base.edgeThreshold + config.weekendEdgeBoost.getD 0 }
    else base
  let t2 : EffectiveThresholds :=
    if phase = "MID" then
      { minProb := t1.minProb + config.midProbBoost.getD 0,
        edgeThreshold := t1.edgeThreshold + config.midEdgeBoost.getD 0 }
    else t1
  if !strictRec && sideInferred then
    { minProb := t2.minProb + config.inferredProbBoost.getD 0,
      edgeThreshold := t2.edgeThreshold + config.inferredEdgeBoost.getD 0 }
  else t2

/-- Entry blockers.  Each constructor stands for one of the
human-readable blocker strings `computeEntryBlockers` pushes, carrying
the numbers/strings interpolated into the message. -/
inductive Blocker where
  | recStrict (action : Option String) : Blocker
  | recLoose (action : Option String) : Blocker
  | missingSide : Blocker
  | missingPolyPrice : Blocker
  | priceSanity : Blocker
  | tooLate (noEntryFinal : ℚ) : Blocker
  | warmup (candleCount minCandles : ℚ) : Blocker
  | indicatorsNotReady : Blocker
  | lossCooldown (seconds : ℚ) : Blocker
  | winCooldown (seconds : ℚ) : Blocker
  | skipMarket : Blocker
  | tradeAlreadyOpen : Blocker
  | outsideSchedule : Blocker
  | liquidityMissing : Blocker
  | lowLiquidity (minLiquidity : ℚ) : Blocker
  | highSpread : Blocker
  | lowMarketVolume (minVolume : ℚ) : Blocker
  | lowVolume : Blocker
  | lowConviction (maxProb minProb : ℚ) : Blocker
  | choppy (range minRange : ℚ) : Blocker
  | spotImpulseUnavailable : Blocker
  | lowImpulse (delta minImpulse : ℚ) : Blocker
  | rsiNoTradeBand (rsi lo hi : ℚ) : Blocker
  | polyPriceOutOfBounds (price : ℚ) : Blocker
  | entryPriceTooHigh (price maxPrice : ℚ) : Blocker
  | oppositePriceTooLow (side : Side) (price minPrice : ℚ) : Blocker
  | probBelow (prob minProb : ℚ) : Blocker
  | edgeBelow (edge threshold : ℚ) : Blocker
  | circuitBreakerBlocked (maxLosses remaining : ℚ) : Blocker
  | dailyLossKillSwitch (pnl maxLoss : ℚ) : Blocker
deriving DecidableEq, Repr

/-- Result of `computeEntryBlockers`. -/
structure EntryGateResult where
  blockers : List Blocker
  effectiveSide : Option Side
  sideInferred : Bool
deriving DecidableEq, Repr

/-- `x > y` on nullable numbers: false when either side is absent
(mirrors JS comparisons involving `undefined`). -/
def optGT (x y : Option ℚ) : Bool :=
  match x, y with
  | some a, some b => decide (b < a)
  | _, _ => false

/-- Strict-gating flag: `String(config.recGating || 'loose') === 'strict'`. -/
def strictRecOf (config : Config) : Bool :=
  (match config.recGating with
   | some s => if s = "" then "loose" else s
   | none => "loose") = "strict"

/-- Side resolution of `computeEntryBlockers` step 2: the explicit
`rec?.side`, or — in loose mode with both model probabilities present —
the side the model favors (`upP >= downP ? 'UP' : 'DOWN'`); the Bool is
`sideInferred`. -/
def resolveSide (signals : Signals) (strictRec : Bool) :
    Option Side × Bool :=
  match signals.recOpt.bind Rec.side with
  | some s => (some s, false)
  | none =>
    if strictRec then (none, false)
    else
      match signals.modelUp, signals.modelDown with
      | some u, some d =>
        (some (if d ≤ u then Side.UP else Side.DOWN), true)
      | _, _ => (none, false)

/-- The orderbook fallback price in cents for the UP outcome: best ask
if positive, else best bid if positive, else none. -/
def fallbackUpCents (signals : Signals) : Option ℚ :=
  match signals.poly.bind PolySnapshot.obUpBestAsk with
  | some a =>
    if 0 < a then some (a * 100)
    else match signals.poly.bind PolySnapshot.obUpBestBid with
      | some b => if 0 < b then some (b * 100) else none
      | none => none
  | none =>
    match signals.poly.bind PolySnapshot.obUpBestBid with
    | some b => if 0 < b then some (b * 100) else none
    | none => none

/-- The orderbook fallback price in cents for the DOWN outcome. -/
def fallbackDownCents (signals : Signals) : Option ℚ :=
  match signals.poly.bind PolySnapshot.obDownBestAsk with
  | some a =>
    if 0 < a then some (a * 100)
    else match signals.poly.bind PolySnapshot.obDownBestBid with
      | some b => if 0 < b then some (b * 100) else none
      | none => none
  | none =>
    match signals.poly.bind PolySnapshot.obDownBestBid with
    | some b => if 0 < b then some (b * 100) else none
    | none => none

/-- `upC`: the primary UP price in cents when positive, else the
orderbook fallback. -/
def upCents (signals : Signals) : Option ℚ :=
  match signals.polyPricesCentsUp with
  | some c => if 0 < c then some c else fallbackUpCents signals
  | none => fallbackUpCents signals

/-- `downC`: the primary DOWN price in cents when positive, else the
orderbook fallback. -/
def downCents (signals : Signals) : Option ℚ :=
  match signals.polyPricesCentsDown with
  | some c => if 0 < c then some c else fallbackDownCents signals
  | none => fallbackDownCents signals

/-- `upCok` / `downCok`: the resolved cents price is a positive number. -/
def centsOk (c : Option ℚ) : Bool :=
  match c with
  | some v => decide (0 < v)
  | none => false

/-- `effectivePolyPrices[side]`: the resolved price in dollars, present
only when the cents price is valid. -/
def effectivePolyPrice (signals : Signals) (side : Side) : Option ℚ :=
  match side with
  | Side.UP =>
    if centsOk (upCents signals) then (upCents signals).map (fun c => c / 100)
    else none
  | Side.DOWN =>
    if centsOk (downCents signals) then
      (downCents signals).map (fun c => c / 100)
    else none

/-- Condition 3 (continuation): price-sanity note when either outcome's
resolved price is invalid. -/
def blockSanity (signals : Signals) : List Blocker :=
  if !(centsOk (upCents signals) && centsOk (downCents signals)) then
    [Blocker.priceSanity]
  else []

/-- Condition 4: settlement time gate. -/
def blockTooLate (signals : Signals) (config : Config) (now : ℚ) :
    List Blocker :=
  let noEntryFinal := config.noEntryFinalMinutes.getD (3/2)
  match timeLeftMinutes signals now with
  | some t => if t < noEntryFinal then [Blocker.tooLate noEntryFinal] else []
  | none => []

/-- Condition 5: candle warmup. -/
def blockWarmup (config : Config) (candleCount : ℚ) : List Blocker :=
  let minCandles := config.minCandlesForEntry.getD 12
  if candleCount < minCandles then [Blocker.warmup candleCount minCandles]
  else []

/-- Condition 6: indicator readiness (five fields must all be
present). -/
def blockIndicators (signals : Signals) : List Blocker :=
  let ind : Indicators := signals.indicators.getD {}
  let populated : Bool :=
    ind.rsiNow.isSome && ind.vwapNow.isSome && ind.vwapSlope.isSome &&
      ind.macdHist.isSome &&
      (truthyStr ind.heikenColor && ind.heikenCount.isSome)
  if !populated then [Blocker.indicatorsNotReady] else []

/-- Condition 7: symmetric win/loss cooldowns from state timestamps. -/
def blockCooldowns (config : Config) (state : TradingState) (now : ℚ) :
    List Blocker :=
  let lossCooldownSec := config.lossCooldownSeconds.getD 0
  let winCooldownSec := config.winCooldownSeconds.getD 0
  (if decide (0 < lossCooldownSec) && truthyNum state.lastLossAtMs &&
      decide (now - (state.lastLossAtMs.getD 0) < lossCooldownSec * 1000)
   then [Blocker.lossCooldown lossCooldownSec] else []) ++
  (if decide (0 < winCooldownSec) && truthyNum state.lastWinAtMs &&
      decide (now - (state.lastWinAtMs.getD 0) < winCooldownSec * 1000)
   then [Blocker.winCooldown winCooldownSec] else [])

/-- Condition 8: skip this market slug after a max-loss stop. -/
def blockSkipMarket (signals : Signals) (config : Config)
    (state : TradingState) : List Blocker :=
  let marketSlug := signals.market.bind Market.slug
  if config.skipMarketAfterMaxLoss.getD false &&
      truthyStr state.skipMarketUntilNextSlug && truthyStr marketSlug &&
      decide (state.skipMarketUntilNextSlug = marketSlug)
  then [Blocker.skipMarket] else []

/-- Condition 9: already in a position. -/
def blockOpenPosition (state : TradingState) : List Blocker :=
  if state.hasOpenPosition then [Blocker.tradeAlreadyOpen] else []

/-- Condition 10: weekday/weekend schedule rules. -/
def blockSchedule (config : Config) (pt : PacificTime) : List Blocker :=
  if config.weekdaysOnly.getD false then
    let isSundayAllowed : Bool :=
      decide (pt.wd = "Sun") &&
        (match config.allowSundayAfterHour, pt.hour with
         | some a, some h => decide (0 ≤ a ∧ a ≤ h)
         | _, _ => false)
    let isFridayAfter : Bool :=
      decide (pt.wd = "Fri") &&
        (match config.noEntryAfterFridayHour, pt.hour with
         | some a, some h => decide (0 ≤ a ∧ a ≤ h)
         | _, _ => false)
    if (pt.isWeekend && !isSundayAllowed) || isFridayAfter then
      [Blocker.outsideSchedule]
    else []
  else []

/-- Weekend-tightening flag (condition 11). -/
def weekendTighteningOf (config : Config) (pt : PacificTime) : Bool :=
  config.weekendTighteningEnabled.getD true && pt.isWeekend

/-- Condition 12: liquidity floor (weekend-tightened when applicable). -/
def blockLiquidity (signals : Signals) (config : Config)
    (pt : PacificTime) : List Blocker :=
  let effectiveMinLiquidity : Option ℚ :=
    if weekendTighteningOf config pt then
      config.weekendMinLiquidity.orElse (fun _ => config.minLiquidity)
    else some (config.minLiquidity.getD 0)
  match signals.market.bind Market.liquidityNum with
  | some l =>
    if 0 < l then
      if optGT effectiveMinLiquidity (some l) then
        [Blocker.lowLiquidity (effectiveMinLiquidity.getD 0)]
      else []
    else [Blocker.liquidityMissing]
  | none => [Blocker.liquidityMissing]

/-- Condition 13: spread ceiling (weekend-tightened when applicable). -/
def blockSpread (signals : Signals) (config : Config) (pt : PacificTime) :
    List Blocker :=
  let effectiveMaxSpread : Option ℚ :=
    if weekendTighteningOf config pt then
      config.weekendMaxSpread.orElse (fun _ => config.maxSpread)
    else config.maxSpread
  if optGT (signals.poly.bind PolySnapshot.obUpSpread) effectiveMaxSpread ||
      optGT (signals.poly.bind PolySnapshot.obDownSpread) effectiveMaxSpread
  then [Blocker.highSpread] else []

/-- Condition 14: market volume floor. -/
def blockMarketVolume (signals : Signals) (config : Config) :
    List Blocker :=
  let minMarketVolumeNum := config.minMarketVolumeNum.getD 0
  match signals.market.bind Market.volumeNum with
  | some v =>
    if 0 < minMarketVolumeNum ∧ v < minMarketVolumeNum then
      [Blocker.lowMarketVolume minMarketVolumeNum]
    else []
  | none => []

/-- Condition 15: BTC volume filters (absolute and ratio-to-average). -/
def blockBtcVolume (signals : Signals) (config : Config) : List Blocker :=
  let volumeRecent := signals.indicators.bind Indicators.volumeRecent
  let volumeAvg := signals.indicators.bind Indicators.volumeAvg
  let minVolumeRecent := config.minVolumeRecent.getD 0
  let minVolumeRel := config.minVolumeRatioCfg.getD 0
  let isLowVolumeAbsolute : Bool :=
    decide (0 < minVolumeRecent) &&
      (match volumeRecent with
       | some v => decide (v < minVolumeRecent)
       | none => false)
  let isLowVolumeRelative : Bool :=
    decide (0 < minVolumeRel) &&
      (match volumeRecent, volumeAvg with
       | some v, some a => decide (v < a * minVolumeRel)
       | _, _ => false)
  if isLowVolumeAbsolute || isLowVolumeRelative then [Blocker.lowVolume]
  else []

/-- Condition 16: model-confidence floor (max of the two outcome
probabilities, weekend-tightened when applicable). -/
def blockConviction (signals : Signals) (config : Config)
    (pt : PacificTime) : List Blocker :=
  let base := config.minModelMaxProb.getD 0
  let eff :=
    if weekendTighteningOf config pt then
      config.weekendMinModelMaxProb.getD base
    else base
  match signals.modelUp, signals.modelDown with
  | some u, some d =>
    if 0 < eff ∧ max u d < eff then [Blocker.lowConviction (max u d) eff]
    else []
  | _, _ => []

/-- Condition 17: volatility (chop) floor on the 20-period range. -/
def blockChoppy (signals : Signals) (config : Config) (pt : PacificTime) :
    List Blocker :=
  let base := config.minRangePct20.getD 0
  let eff :=
    if weekendTighteningOf config pt then
      config.weekendMinRangePct20.getD base
    else base
  match signals.indicators.bind Indicators.rangePct20 with
  | some r =>
    if 0 < eff ∧ r < eff then [Blocker.choppy r eff] else []
  | none => []

/-- Condition 18: short-term BTC spot impulse floor. -/
def blockImpulse (signals : Signals) (config : Config) : List Blocker :=
  let minImpulse := config.minBtcImpulsePct1m.getD 0
  if 0 < minImpulse then
    match signals.spot.bind Spot.delta1mPct with
    | none => [Blocker.spotImpulseUnavailable]
    | some d =>
      if |d| < minImpulse then [Blocker.lowImpulse d minImpulse] else []
  else []

/-- Condition 19: RSI dead-zone band. -/
def blockRsiBand (signals : Signals) (config : Config) : List Blocker :=
  match signals.indicators.bind Indicators.rsiNow, config.noTradeRsiMin,
      config.noTradeRsiMax with
  | some r, some lo, some hi =>
    if lo ≤ r ∧ r < hi then [Blocker.rsiNoTradeBand r lo hi] else []
  | _, _, _ => []

/-- Condition 20: absolute bounds on the traded outcome's price. -/
def blockPriceBounds (config : Config) (currentPolyPrice : ℚ) :
    List Blocker :=
  let minPoly := config.minPolyPrice.getD (1/500)
  let maxPoly := config.maxPolyPrice.getD (49/50)
  if currentPolyPrice < minPoly ∨ maxPoly < currentPolyPrice then
    [Blocker.polyPriceOutOfBounds currentPolyPrice]
  else []

/-- Condition 21: entry-specific price cap. -/
def blockEntryPriceCap (config : Config) (currentPolyPrice : ℚ) :
    List Blocker :=
  match config.maxEntryPolyPrice with
  | some mx =>
    if mx < currentPolyPrice then
      [Blocker.entryPriceTooHigh currentPolyPrice mx]
    else []
  | none => []

/-- Condition 22: minimum price floor on the opposing outcome. -/
def blockOppositePrice (signals : Signals) (config : Config)
    (effectiveSide : Side) : List Blocker :=
  let minOpp := config.minOppositePolyPrice.getD 0
  if 0 < minOpp then
    let oppSide := match effectiveSide with
      | Side.UP => Side.DOWN
      | Side.DOWN => Side.UP
    let oppPx : Option ℚ :=
      (effectivePolyPrice signals oppSide).orElse
        (fun _ => match oppSide with
         | Side.UP => signals.polyPricesUp
         | Side.DOWN => signals.polyPricesDown)
    match oppPx with
    | some px =>
      if px < minOpp then [Blocker.oppositePriceTooLow oppSide px minOpp]
      else []
    | none => []
  else []

/-- Condition 23: phase-dependent probability/edge thresholds (only when
the recommendation carries both a phase and an explicit side). -/
def blockPhaseThresholds (signals : Signals) (config : Config)
    (pt : PacificTime) (effectiveSide : Side) (sideInferred strictRec : Bool) :
    List Blocker :=
  match signals.recOpt.bind Rec.phase, signals.recOpt.bind Rec.side with
  | some phase, some _ =>
    if phase ≠ "" then
      let th :=
        computeEffectiveThresholds config pt.isWeekend phase sideInferred
          strictRec
      let modelProb := match effectiveSide with
        | Side.UP => signals.modelUp
        | Side.DOWN => signals.modelDown
      let edge := (signals.recOpt.bind Rec.edge).getD 0
      (match modelProb with
       | some mp =>
         if mp < th.minProb then [Blocker.probBelow mp th.minProb] else []
       | none => []) ++
      (if edge < th.edgeThreshold then
        [Blocker.edgeBelow edge th.edgeThreshold]
       else [])
    else []
  | _, _ => []

/-- Condition 24: consecutive-loss circuit breaker (reads, and in the
source also mutates, the trading state; only the returned value feeds
the blocker list). -/
def blockCircuitBreaker (config : Config) (state : TradingState)
    (now : ℚ) : List Blocker :=
  let cbMaxLosses := config.circuitBreakerConsecutiveLosses.getD 0
  let cbCooldownMs := config.circuitBreakerCooldownMs.getD 300000
  if 0 < cbMaxLosses then
    let cb := (state.checkCircuitBreaker cbMaxLosses cbCooldownMs now).1
    if cb.tripped then
      [Blocker.circuitBreakerBlocked cbMaxLosses cb.remaining]
    else []
  else []

/-- Condition 25: daily realized-loss kill switch. -/
def blockDailyLoss (config : Config) (state : TradingState) :
    List Blocker :=
  match config.maxDailyLossUsd with
  | some m =>
    if 0 < m ∧ state.todayRealizedPnl ≤ -|m| then
      [Blocker.dailyLossKillSwitch state.todayRealizedPnl m]
    else []
  | none => []

/-- The blocker contributions of conditions 4–25, concatenated in source
order (the sanity note of condition 3 included).  This is what
`computeEntryBlockers` appends once its three early-out gates have
passed. -/
def entryChecks (signals : Signals) (config : Config)
    (state : TradingState) (candleCount : ℚ) (now : ℚ) (pt : PacificTime)
    (effectiveSide : Side) (currentPolyPrice : ℚ)
    (sideInferred strictRec : Bool) : List Blocker :=
  blockSanity signals ++
  blockTooLate signals config now ++
  blockWarmup config candleCount ++
  blockIndicators signals ++
  blockCooldowns config state now ++
  blockSkipMarket signals config state ++
  blockOpenPosition state ++
  blockSchedule config pt ++
  blockLiquidity signals config pt ++
  blockSpread signals config pt ++
  blockMarketVolume signals config ++
  blockBtcVolume signals config ++
  blockConviction signals config pt ++
  blockChoppy signals config pt ++
  blockImpulse signals config ++
  blockRsiBand signals config ++
  blockPriceBounds config currentPolyPrice ++
  blockEntryPriceCap config currentPolyPrice ++
  blockOppositePrice signals config effectiveSide ++
  blockPhaseThresholds signals config pt effectiveSide sideInferred
    strictRec ++
  blockCircuitBreaker config state now ++
  blockDailyLoss config state

/-- `computeEntryBlockers(signals, config, state, candleCount)` from
`src/unnamed/part_010`: collect all entry blockers.

The source reads the ambient clock (`Date.now()` for the cooldown and
settlement checks, `getPacificTimeInfo()` for the schedule/weekend
checks); both reads are explicit arguments here.

Three checks return early, exactly as in the source: a missing
recommendation under strict gating (step 1), a missing resolvable side
(step 2), and a missing current-side Polymarket price (step 3).  After
those, every check only appends to the list: `entryChecks` is the
concatenation of the remaining conditions' contributions in source
order. -/
def computeEntryBlockers (signals : Signals) (config : Config)
    (state : TradingState) (candleCount : ℚ) (nowMs : ℚ)
    (pt : PacificTime) : EntryGateResult :=
  let recAction := signals.recOpt.bind Rec.action
  let strictRec := strictRecOf config
  -- 1. Rec gating (hard early-out under strict gating)
  if strictRec && decide (recAction ≠ some "ENTER") then
    { blockers := [Blocker.recStrict recAction], effectiveSide := none,
      sideInferred := false }
  else
  let b1 : List Blocker :=
    if !strictRec && decide (recAction ≠ some "ENTER") then
      [Blocker.recLoose recAction]
    else []
  -- 2. Side resolution (hard early-out when no side resolves)
  let resolved := resolveSide signals strictRec
  match resolved.1 with
  | none =>
    { blockers := b1 ++ [Blocker.missingSide], effectiveSide := none,
      sideInferred := resolved.2 }
  | some effectiveSide =>
  -- 3. Polymarket price resolution (early-out when the traded side has
  -- no resolvable price)
  match effectivePolyPrice signals effectiveSide with
  | none =>
    { blockers := b1 ++ [Blocker.missingPolyPrice],
      effectiveSide := some effectiveSide, sideInferred := resolved.2 }
  | some currentPolyPrice =>
    { blockers := b1 ++
        entryChecks signals config state candleCount nowMs pt
          effectiveSide currentPolyPrice resolved.2 strictRec,
      effectiveSide := some effectiveSide, sideInferred := resolved.2 }

-- ─── Derived definitions used by the verification ──────────────────

/-- Whether an exit reason is one of the `Max Loss ($…)` reasons (the
reasons whose rendered string starts with `Max Loss`). -/
def ExitReason.isMaxLoss : ExitReason → Bool
  | ExitReason.maxLoss _ => true
  | _ => false

/-- The engine's per-tick MFE/MAE update for one position: `trackMFE`
then `trackMAE` with the same `unrealizedPnl` (TradingEngine
`processSignals`, src/unnamed/part_005). -/
def TradingState.trackPair (s : TradingState) (posId : String) (v : ℚ) :
    TradingState :=
  (s.trackMFE posId v).trackMAE posId v

/-- A sequence of engine ticks feeding the same position's MFE/MAE
tracking with the successive unrealized-PnL observations `vs`. -/
def TradingState.trackRun (s : TradingState) (posId : String)
    (vs : List ℚ) : TradingState :=
  vs.foldl (fun st v => st.trackPair posId v) s

/-- A level the fill walk actually consumes: positive price and size. -/
def validLevel (l : BookLevel) : Bool :=
  decide (0 < l.price) && decide (0 < l.size)

/-- Total notional available across the valid levels of a list. -/
def validNotional (levels : List BookLevel) : ℚ :=
  ((levels.filter validLevel).map (fun l => l.price * l.size)).sum

-- ─── Shared lemmas ─────────────────────────────────────────────────

/-- Rounding down to the cent never increases a value. -/
theorem floorCent_le (x : ℚ) : floorCent x ≤ x := by
  unfold floorCent
  rw [div_le_iff₀ (by norm_num : (0:ℚ) < 100)]
  exact Int.floor_le (x * 100)

/-- Rounding down to the cent is monotone. -/
theorem floorCent_mono {x y : ℚ} (h : x ≤ y) : floorCent x ≤ floorCent y := by
  unfold floorCent
  have : (⌊x * 100⌋ : ℤ) ≤ ⌊y * 100⌋ :=
    Int.floor_le_floor (by nlinarith)
  rw [div_le_div_iff_of_pos_right (by norm_num : (0:ℚ) < 100)]
  exact_mod_cast this

/-- `recordExit` leaves the circuit-breaker trip timestamp unchanged. -/
theorem recordExit_trippedAt (s : TradingState) (pnl : Option ℚ)
    (slug : Option String) (reason : String) (skip : Bool) (now : ℚ) :
    (s.recordExit pnl slug reason skip now).circuitBreakerTrippedAtMs =
      s.circuitBreakerTrippedAtMs := by
  unfold TradingState.recordExit TradingState.updateDailyPnl
  cases pnl <;> dsimp <;> split <;> simp_all <;> split <;> simp_all

/-- A losing exit increments the consecutive-loss counter. -/
theorem recordExit_loss_count (s : TradingState) (p : ℚ)
    (slug : Option String) (reason : String) (skip : Bool) (now : ℚ)
    (h : p < 0) :
    (s.recordExit (some p) slug reason skip now).consecutiveLosses =
      s.consecutiveLosses + 1 := by
  unfold TradingState.recordExit TradingState.updateDailyPnl
  dsimp
  rw [if_pos h]
  split <;> simp

-- ─── C10: break-even close counts as a win ─────────────────────────

/-- C10: for every exit recorded via `TradingState.recordExit` with pnl
exactly 0, the consecutive-loss counter resets to 0 and the win-cooldown
timestamp is stamped, while the loss-cooldown timestamp is left
unchanged. -/
theorem c10_breakeven_is_win (s : TradingState) (slug : Option String)
    (reason : String) (skip : Bool) (now : ℚ) :
    (s.recordExit (some 0) slug reason skip now).consecutiveLosses = 0 ∧
    (s.recordExit (some 0) slug reason skip now).lastWinAtMs = some now ∧
    (s.recordExit (some 0) slug reason skip now).lastLossAtMs =
      s.lastLossAtMs := by
  unfold TradingState.recordExit TradingState.updateDailyPnl
  dsimp
  split <;> simp

-- ─── C7: closePosition on a nonexistent position ───────────────────

/-- C7 (counterexample): closing when no open trade exists returns a
normal `CloseResult` flagged `closed := false` — it does not raise any
error, contrary to the claim. -/
theorem c7_counterexample :
    PaperExecutor.closePosition none
      { reason := "Manual" } none none { } =
      { closed := false, exitPrice := 0, pnl := 0,
        reason := CloseReason.given "Manual" } := rfl

/-- C7 (amended): for every close request evaluated with no open trade,
`PaperExecutor.closePosition` returns normally with `closed = false`,
`exitPrice = 0`, `pnl = 0` and the request's reason echoed back, rather
than raising an error. -/
theorem c7_close_without_position (request : CloseRequest)
    (book : Option OrderBook) (clobPrice : Option ℚ) (config : Config) :
    PaperExecutor.closePosition none request book clobPrice config =
      { closed := false, exitPrice := 0, pnl := 0,
        reason := CloseReason.given request.reason } := rfl

-- ─── C3: market rollover has first priority ────────────────────────

/-- C3: whenever the market-rollover condition holds (both slugs present
and different), `evaluateExits` returns the `Market Rollover` decision —
in particular it wins over every later condition. -/
theorem c3_rollover_first (position : PositionView) (signals : Signals)
    (config : Config) (graceState : GraceState) (nowMs : ℚ)
    (h : exitRollover position signals = true) :
    (evaluateExits (some position) signals config graceState nowMs).decision
      = some ExitReason.marketRollover := by
  unfold evaluateExits
  simp [h]

/-- C3 witness: a concrete rollover input. -/
theorem c3_rollover_first_witness :
    (evaluateExits
      (some { side := Side.UP, marketSlug := some "btc-0940",
              contractSize := some 110, unrealizedPnl := some (-20) })
      { market := some { slug := some "btc-0945" } }
      { maxLossUsdPerTrade := some 15 } { } 0).decision
      = some ExitReason.marketRollover :=
  c3_rollover_first _ _ _ _ _ (by decide)

-- ─── C4: computeTradeSize bounds ───────────────────────────────────

/-- `cappedTradeSize` never exceeds the balance. -/
theorem cappedTradeSize_le_bal (config : Config) (bal : ℚ) :
    cappedTradeSize config bal ≤ bal := by
  unfold cappedTradeSize
  exact le_trans (floorCent_le _) (min_le_right _ _)

/-- `cappedTradeSize` never exceeds a `maxTradeUsd` that dominates
`minTradeUsd`. -/
theorem cappedTradeSize_le_max (config : Config) (bal M : ℚ)
    (hM : config.maxTradeUsd = some M)
    (hmin : config.minTradeUsd.getD 0 ≤ M) :
    cappedTradeSize config bal ≤ M := by
  unfold cappedTradeSize
  rw [hM]
  refine le_trans (floorCent_le _) (le_trans (min_le_left _ _) ?_)
  exact max_le hmin (min_le_left _ _)

/-- `cappedTradeSize` is at least the cent-floor of
`min(minTradeUsd, balance)`. -/
theorem cappedTradeSize_ge_min (config : Config) (bal : ℚ) :
    floorCent (min (config.minTradeUsd.getD 0) bal) ≤
      cappedTradeSize config bal := by
  unfold cappedTradeSize
  exact floorCent_mono (min_le_min (le_max_left _ _) le_rfl)

/-- On a positive balance, `computeTradeSize` is either 0 or the
positive `cappedTradeSize`. -/
theorem computeTradeSize_cases (b : ℚ) (config : Config) (hb : ¬b ≤ 0) :
    computeTradeSize (some b) config = 0 ∨
    (computeTradeSize (some b) config = cappedTradeSize config b ∧
      0 < computeTradeSize (some b) config) := by
  unfold computeTradeSize
  dsimp only
  rw [if_neg hb]
  by_cases h : 0 < cappedTradeSize config b
  · right; rw [if_pos h]; exact ⟨rfl, h⟩
  · left; rw [if_neg h]

/-- C4 (counterexample): with `minTradeUsd = 25` and a balance of 5, the
result is 5 — positive yet strictly below `minTradeUsd`, because the
balance cap is applied after the `[minTradeUsd, maxTradeUsd]` clamp. -/
theorem c4_counterexample :
    computeTradeSize (some 5)
      { minTradeUsd := some 25, maxTradeUsd := some 250 } = 5 ∧
    (0:ℚ) < 5 ∧ (5:ℚ) < 25 := by
  refine ⟨?_, by norm_num, by norm_num⟩
  norm_num [computeTradeSize, cappedTradeSize, baseTradeSize, floorCent,
    min_def, max_def]

/-- C4 (amended): `computeTradeSize` returns 0 for a non-finite or
non-positive balance; the result is always nonnegative and never exceeds
a positive balance; and a positive result is at most `maxTradeUsd`
(whenever `minTradeUsd ≤ maxTradeUsd`) and at least the cent-floor of
`min(minTradeUsd, balance)` — the balance cap and the cent-floor can
push a positive result below `minTradeUsd` itself. -/
theorem c4_trade_size_bounds (config : Config) :
    computeTradeSize none config = 0 ∧
    (∀ b : ℚ, b ≤ 0 → computeTradeSize (some b) config = 0) ∧
    (∀ b : ℚ, 0 ≤ computeTradeSize (some b) config) ∧
    (∀ b : ℚ, 0 < b → computeTradeSize (some b) config ≤ b) ∧
    (∀ b M : ℚ, config.maxTradeUsd = some M →
      config.minTradeUsd.getD 0 ≤ M →
      0 < computeTradeSize (some b) config →
      computeTradeSize (some b) config ≤ M) ∧
    (∀ b : ℚ, 0 < computeTradeSize (some b) config →
      floorCent (min (config.minTradeUsd.getD 0) b) ≤
        computeTradeSize (some b) config) := by
  refine ⟨rfl, ?_, ?_, ?_, ?_, ?_⟩
  · intro b hb
    unfold computeTradeSize
    dsimp only
    rw [if_pos hb]
  · intro b
    by_cases hb : b ≤ 0
    · unfold computeTradeSize; dsimp only; rw [if_pos hb]
    · rcases computeTradeSize_cases b config hb with h | ⟨_, hpos⟩
      · rw [h]
      · exact le_of_lt hpos
  · intro b hbpos
    rcases computeTradeSize_cases b config (not_le.mpr hbpos) with
      h | ⟨heq, _⟩
    · rw [h]; exact le_of_lt hbpos
    · rw [heq]; exact cappedTradeSize_le_bal config b
  · intro b M hM hminM hpos
    by_cases hb : b ≤ 0
    · unfold computeTradeSize at hpos
      dsimp only at hpos
      rw [if_pos hb] at hpos
      exact absurd hpos (lt_irrefl 0)
    · rcases computeTradeSize_cases b config hb with h | ⟨heq, _⟩
      · rw [h] at hpos; exact absurd hpos (lt_irrefl 0)
      · rw [heq]; exact cappedTradeSize_le_max config b M hM hminM
  · intro b hpos
    by_cases hb : b ≤ 0
    · unfold computeTradeSize at hpos
      dsimp only at hpos
      rw [if_pos hb] at hpos
      exact absurd hpos (lt_irrefl 0)
    · rcases computeTradeSize_cases b config hb with h | ⟨heq, _⟩
      · rw [h] at hpos; exact absurd hpos (lt_irrefl 0)
      · rw [heq]; exact cappedTradeSize_ge_min config b

/-- C4 witness: the amended bounds at concrete inputs (the spec's sizing
scenario `balance=1000, stakePct=0.08, min=25, max=250`, and a negative
balance). -/
theorem c4_trade_size_bounds_witness :
    computeTradeSize (some 1000)
      { stakePct := some (8/100), minTradeUsd := some 25,
        maxTradeUsd := some 250 } ≤ 1000 ∧
    computeTradeSize (some (-3))
      { stakePct := some (8/100), minTradeUsd := some 25,
        maxTradeUsd := some 250 } = 0 ∧
    (0 < computeTradeSize (some 1000)
      { stakePct := some (8/100), minTradeUsd := some 25,
        maxTradeUsd := some 250 } →
      computeTradeSize (some 1000)
        { stakePct := some (8/100), minTradeUsd := some 25,
          maxTradeUsd := some 250 } ≤ 250) :=
  ⟨(c4_trade_size_bounds _).2.2.2.1 1000 (by norm_num),
   (c4_trade_size_bounds _).2.1 (-3) (by norm_num),
   fun h => (c4_trade_size_bounds _).2.2.2.2.1 1000 250 rfl (by norm_num) h⟩

-- ─── C1: capPnl ledger-consistency identity ────────────────────────

/-- C1 (counterexample): capping occurs (`maxLoss = 15 > 0`,
`rawPnl = -20 < -15`) but the capped value `contractSize - 15 = -5` is
not positive, so the source keeps the raw exit price and the identity
`shares × exitPrice = contractSize + pnl` fails
(`10 × 0.5 = 5 ≠ -5`). -/
theorem c1_counterexample :
    computeMaxLossUsd (some 10) { maxLossUsdPerTrade := some 15 } =
      some 15 ∧
    ((-20:ℚ) < -(15:ℚ)) ∧
    capPnl (-20) 10 10 (1/2) { maxLossUsdPerTrade := some 15 } =
      { pnl := -15, exitPrice := 1/2 } ∧
    (10:ℚ) * (1/2) ≠ 10 + (-15) := by
  refine ⟨rfl, by norm_num, ?_, by norm_num⟩
  norm_num [capPnl, computeMaxLossUsd]

/-- C1 (amended): when capping occurs (configured positive threshold
`v`, `rawPnl < -|v|`) **and** the implied exit price is usable
(`shares > 0` and `contractSize - |v| > 0`), the returned pair satisfies
`shares × exitPrice = contractSize + pnl` exactly; when capping occurs
otherwise, the PnL is capped but the exit price is returned unchanged
(so the identity is not guaranteed); and when capping does not occur,
both values are returned unchanged. -/
theorem c1_capPnl_exact (rawPnl contractSize shares exitPrice v : ℚ)
    (config : Config)
    (hm : computeMaxLossUsd (some contractSize) config = some v) :
    (0 < v → rawPnl < -|v| → 0 < shares → 0 < contractSize - |v| →
      capPnl rawPnl contractSize shares exitPrice config =
        { pnl := -|v|, exitPrice := (contractSize + -|v|) / shares } ∧
      shares * ((contractSize + -|v|) / shares) = contractSize + -|v|) ∧
    (0 < v → rawPnl < -|v| → ¬(0 < shares ∧ 0 < contractSize - |v|) →
      capPnl rawPnl contractSize shares exitPrice config =
        { pnl := -|v|, exitPrice := exitPrice }) ∧
    (¬(0 < v ∧ rawPnl < -|v|) →
      capPnl rawPnl contractSize shares exitPrice config =
        { pnl := rawPnl, exitPrice := exitPrice }) := by
  unfold capPnl
  rw [hm]
  dsimp only
  refine ⟨?_, ?_, ?_⟩
  · intro hv hraw hs hcv
    rw [if_pos ⟨hv, hraw⟩, if_pos hs]
    have hpos : 0 < (contractSize + -|v|) / shares := by
      apply div_pos _ hs
      linarith
    rw [if_pos hpos]
    exact ⟨rfl, mul_div_cancel₀ _ (ne_of_gt hs)⟩
  · intro hv hraw hnot
    rw [if_pos ⟨hv, hraw⟩]
    by_cases hs : 0 < shares
    · have hcv : ¬0 < contractSize - |v| := fun h => hnot ⟨hs, h⟩
      rw [if_pos hs]
      have : ¬0 < (contractSize + -|v|) / shares := by
        intro h
        apply hcv
        have := (div_pos_iff.mp h)
        rcases this with ⟨h1, _⟩ | ⟨_, h2⟩
        · linarith
        · linarith
      rw [if_neg this]
    · rw [if_neg hs]
      by_cases hx : 0 < exitPrice
      · rw [if_pos hx]
      · rw [if_neg hx]
  · intro hnot
    rw [if_neg hnot]

/-- C1 witness: the exact-identity case at a concrete input
(`contractSize=100, shares=200, maxLoss=15, rawPnl=-50`). -/
theorem c1_capPnl_exact_witness :
    capPnl (-50) 100 200 (2/5) { maxLossUsdPerTrade := some 15 } =
      { pnl := -|(15:ℚ)|, exitPrice := (100 + -|(15:ℚ)|) / 200 } ∧
    (200:ℚ) * ((100 + -|(15:ℚ)|) / 200) = 100 + -|(15:ℚ)| :=
  (c1_capPnl_exact (-50) 100 200 (2/5) 15
      { maxLossUsdPerTrade := some 15 }
      (by norm_num [computeMaxLossUsd])).1
    (by norm_num) (by norm_num) (by norm_num) (by norm_num)

-- ─── C6: circuit breaker trips and resets ──────────────────────────

/-- C6: from a fresh session state, two consecutive losing exits
recorded via `recordExit` make `checkCircuitBreaker(2, cooldownMs)`
return `tripped = true` with `remaining > 0`; and a subsequent call made
at least `cooldownMs` after tripping returns `tripped = false` with the
consecutive-loss counter reset to 0. -/
theorem c6_circuit_breaker (t1 t2 t3 t4 p1 p2 cooldownMs : ℚ)
    (slug1 slug2 : Option String) (r1 r2 : String) (k1 k2 : Bool)
    (h1 : p1 < 0) (h2 : p2 < 0) (h3 : 0 < cooldownMs)
    (h4 : cooldownMs ≤ t4 - t3) :
    (((TradingState.init.recordExit (some p1) slug1 r1 k1 t1).recordExit
        (some p2) slug2 r2 k2 t2).checkCircuitBreaker 2 cooldownMs
        t3).1.tripped = true ∧
    0 < (((TradingState.init.recordExit (some p1) slug1 r1 k1
        t1).recordExit (some p2) slug2 r2 k2 t2).checkCircuitBreaker 2
        cooldownMs t3).1.remaining ∧
    ((((TradingState.init.recordExit (some p1) slug1 r1 k1 t1).recordExit
        (some p2) slug2 r2 k2 t2).checkCircuitBreaker 2 cooldownMs
        t3).2.checkCircuitBreaker 2 cooldownMs t4).1.tripped = false ∧
    ((((TradingState.init.recordExit (some p1) slug1 r1 k1 t1).recordExit
        (some p2) slug2 r2 k2 t2).checkCircuitBreaker 2 cooldownMs
        t3).2.checkCircuitBreaker 2 cooldownMs
        t4).2.consecutiveLosses = 0 := by
  have e0 : TradingState.init.consecutiveLosses = 0 := rfl
  have e0' : TradingState.init.circuitBreakerTrippedAtMs = none := rfl
  have e1 :
      (TradingState.init.recordExit (some p1) slug1 r1 k1
        t1).consecutiveLosses = 1 := by
    rw [recordExit_loss_count _ _ _ _ _ _ h1, e0]; norm_num
  have e1' :
      (TradingState.init.recordExit (some p1) slug1 r1 k1
        t1).circuitBreakerTrippedAtMs = none := by
    rw [recordExit_trippedAt, e0']
  have e2 :
      ((TradingState.init.recordExit (some p1) slug1 r1 k1 t1).recordExit
        (some p2) slug2 r2 k2 t2).consecutiveLosses = 2 := by
    rw [recordExit_loss_count _ _ _ _ _ _ h2, e1]; norm_num
  have e2' :
      ((TradingState.init.recordExit (some p1) slug1 r1 k1 t1).recordExit
        (some p2) slug2 r2 k2 t2).circuitBreakerTrippedAtMs = none := by
    rw [recordExit_trippedAt, e1']
  unfold TradingState.checkCircuitBreaker
  rw [e2']
  dsimp only
  rw [if_pos (by rw [e2] : (2:ℚ) ≤ _)]
  try dsimp only
  rw [if_neg (not_lt.mpr h4)]
  try dsimp only
  rw [if_neg (by norm_num : ¬(2:ℚ) ≤ 0)]
  exact ⟨rfl, h3, rfl, rfl⟩

/-- C6 witness: the scenario at concrete inputs. -/
theorem c6_circuit_breaker_witness :
    (((TradingState.init.recordExit (some (-5)) none "" false
        0).recordExit (some (-7)) none "" false 1).checkCircuitBreaker 2
        60000 2).1.tripped = true ∧
    0 < (((TradingState.init.recordExit (some (-5)) none "" false
        0).recordExit (some (-7)) none "" false 1).checkCircuitBreaker 2
        60000 2).1.remaining ∧
    ((((TradingState.init.recordExit (some (-5)) none "" false
        0).recordExit (some (-7)) none "" false 1).checkCircuitBreaker 2
        60000 2).2.checkCircuitBreaker 2 60000 60002).1.tripped = false ∧
    ((((TradingState.init.recordExit (some (-5)) none "" false
        0).recordExit (some (-7)) none "" false 1).checkCircuitBreaker 2
        60000 2).2.checkCircuitBreaker 2 60000
        60002).2.consecutiveLosses = 0 :=
  c6_circuit_breaker 0 1 2 60002 (-5) (-7) 60000 none none "" "" false
    false (by norm_num) (by norm_num) (by norm_num) (by norm_num)

-- ─── C9: MFE/MAE tracking invariant ────────────────────────────────

/-- C9: along any run of engine ticks that feed a position's MFE/MAE
tracking (a `trackMFE`/`trackMAE` pair with the same `unrealizedPnl`
each tick), immediately after the pair with value `v` both trackers are
populated and `getMinUnrealized ≤ v ≤ getMaxUnrealized` (hence
`getMaxUnrealized ≥ getMinUnrealized`). -/
theorem c9_mfe_mae_invariant (s0 : TradingState) (posId : String)
    (vs : List ℚ) (v : ℚ) :
    ∃ M m : ℚ,
      (s0.trackRun posId (vs ++ [v])).getMaxUnrealized posId = some M ∧
      (s0.trackRun posId (vs ++ [v])).getMinUnrealized posId = some m ∧
      m ≤ v ∧ v ≤ M ∧ m ≤ M := by
  unfold TradingState.trackRun
  rw [List.foldl_append]
  set s := vs.foldl (fun st x => st.trackPair posId x) s0 with hs
  refine ⟨max ((s.mfeByPos posId).getD v) v,
          min ((s.maeByPos posId).getD v) v, ?_, ?_, ?_, ?_, ?_⟩
  · simp [TradingState.trackPair, TradingState.trackMFE,
      TradingState.trackMAE, TradingState.getMaxUnrealized]
  · simp [TradingState.trackPair, TradingState.trackMFE,
      TradingState.trackMAE, TradingState.getMinUnrealized]
  · exact min_le_right _ _
  · exact le_max_right _ _
  · exact le_trans (min_le_right _ _) (le_max_right _ _)

-- ─── C2: grace window fires at most once ───────────────────────────

/-- With a used grace window and no running timer, a max-loss breach
makes the max-loss block exit immediately (`Max Loss` with the absolute
threshold) and report no grace action. -/
theorem maxLossStep_used_no_timer (position : PositionView)
    (signals : Signals) (config : Config) (graceState : GraceState)
    (now p m : ℚ) (hused : graceState.used = true)
    (hb : graceState.breachAtMs = none)
    (hp : position.unrealizedPnl = some p)
    (hm : computeMaxLossUsd position.contractSize config = some m)
    (hm0 : 0 < m) (hbr : p ≤ -|m|) :
    maxLossStep position signals config graceState now = (none, some |m|) := by
  unfold maxLossStep
  rw [hp, hm]
  dsimp only
  rw [if_pos hm0]
  simp [hused, hb, truthyNum, hbr]

/-- `START_GRACE` is only ever produced from an unused grace state. -/
theorem maxLossStep_startGrace_unused (position : PositionView)
    (signals : Signals) (config : Config) (graceState : GraceState)
    (now : ℚ)
    (h : (maxLossStep position signals config graceState now).1 =
      some GraceAction.startGrace) :
    graceState.used = false := by
  cases hu : graceState.used
  · rfl
  · exfalso
    unfold maxLossStep at h
    rw [hu] at h
    simp only [Bool.not_true, Bool.false_and] at h
    repeat' split at h
    all_goals try simp at h
    all_goals contradiction

/-- `evaluateExits` reports either no grace action or exactly the one
computed by the max-loss block. -/
theorem evaluateExits_graceAction (position : PositionView)
    (signals : Signals) (config : Config) (graceState : GraceState)
    (nowMs : ℚ) :
    (evaluateExits (some position) signals config graceState
      nowMs).graceAction = none ∨
    (evaluateExits (some position) signals config graceState
      nowMs).graceAction =
      (maxLossStep position signals config graceState nowMs).1 := by
  unfold evaluateExits
  dsimp only
  split
  · exact Or.inl rfl
  split
  · exact Or.inl rfl
  right
  repeat' split
  all_goals rfl

/-- C2 (counterexample): a used grace state with no timer and a genuine
max-loss breach, but on a rolled-over market: the exit decision is
`Market Rollover`, not a `Max Loss` reason — the rollover check
preempts the max-loss exit, so the claim's "reason starts with Max
Loss" fails as universally stated. -/
theorem c2_counterexample :
    computeMaxLossUsd (some 110) { maxLossUsdPerTrade := some 15 } =
      some 15 ∧
    (0:ℚ) < 15 ∧ (-20:ℚ) ≤ -|(15:ℚ)| ∧
    (evaluateExits
      (some { side := Side.UP, marketSlug := some "btc-0940",
              contractSize := some 110, unrealizedPnl := some (-20) })
      { market := some { slug := some "btc-0945" } }
      { maxLossUsdPerTrade := some 15 }
      { breachAtMs := none, used := true } 0).decision =
      some ExitReason.marketRollover ∧
    ((evaluateExits
      (some { side := Side.UP, marketSlug := some "btc-0940",
              contractSize := some 110, unrealizedPnl := some (-20) })
      { market := some { slug := some "btc-0945" } }
      { maxLossUsdPerTrade := some 15 }
      { breachAtMs := none, used := true } 0).decision.map
        ExitReason.isMaxLoss) = some false := by
  refine ⟨rfl, by norm_num, by norm_num, rfl, rfl⟩

/-- C2 (amended): with a used grace window (`used = true`,
`breachAtMs = null`) and a max-loss breach, provided neither the
market-rollover nor the pre-settlement condition fires first,
`evaluateExits` exits immediately with the `Max Loss` reason and
reports no grace action; and with `used = true` no call whatsoever
produces `START_GRACE` again. -/
theorem c2_grace_fires_once (position : PositionView) (signals : Signals)
    (config : Config) (graceState : GraceState) (nowMs p m : ℚ)
    (hused : graceState.used = true)
    (hb : graceState.breachAtMs = none)
    (hp : position.unrealizedPnl = some p)
    (hm : computeMaxLossUsd position.contractSize config = some m)
    (hm0 : 0 < m) (hbr : p ≤ -|m|)
    (hroll : exitRollover position signals = false)
    (hpre : exitPreSettlement signals config nowMs = false) :
    (evaluateExits (some position) signals config graceState
      nowMs).decision = some (ExitReason.maxLoss |m|) ∧
    (evaluateExits (some position) signals config graceState
      nowMs).graceAction = none ∧
    ∀ (pos2 : PositionView) (sig2 : Signals) (cfg2 : Config) (now2 : ℚ),
      (evaluateExits (some pos2) sig2 cfg2 graceState now2).graceAction ≠
        some GraceAction.startGrace := by
  have hstep := maxLossStep_used_no_timer position signals config
    graceState nowMs p m hused hb hp hm hm0 hbr
  refine ⟨?_, ?_, ?_⟩
  · unfold evaluateExits
    dsimp only
    simp [hroll, hpre, hstep]
  · unfold evaluateExits
    dsimp only
    simp [hroll, hpre, hstep]
  · intro pos2 sig2 cfg2 now2 hcontra
    rcases evaluateExits_graceAction pos2 sig2 cfg2 graceState now2 with
      h | h
    · rw [h] at hcontra; exact Option.noConfusion hcontra
    · rw [h] at hcontra
      have := maxLossStep_startGrace_unused pos2 sig2 cfg2 graceState
        now2 hcontra
      rw [hused] at this
      exact Bool.noConfusion this

/-- C2 witness: the amended statement at a concrete input (grace used,
timer cleared, breach on the same market). -/
theorem c2_grace_fires_once_witness :
    (evaluateExits
      (some { side := Side.UP, marketSlug := some "btc-0940",
              contractSize := some 110, unrealizedPnl := some (-20) })
      { market := some { slug := some "btc-0940" } }
      { maxLossUsdPerTrade := some 15 }
      { breachAtMs := none, used := true } 0).decision =
      some (ExitReason.maxLoss |(15:ℚ)|) ∧
    (evaluateExits
      (some { side := Side.UP, marketSlug := some "btc-0940",
              contractSize := some 110, unrealizedPnl := some (-20) })
      { market := some { slug := some "btc-0940" } }
      { maxLossUsdPerTrade := some 15 }
      { breachAtMs := none, used := true } 0).graceAction = none :=
  ⟨(c2_grace_fires_once
      { side := Side.UP, marketSlug := some "btc-0940",
        contractSize := some 110, unrealizedPnl := some (-20) }
      { market := some { slug := some "btc-0940" } }
      { maxLossUsdPerTrade := some 15 }
      { breachAtMs := none, used := true } 0 (-20) 15 rfl rfl rfl rfl
      (by norm_num) (by norm_num) (by decide) (by decide)).1,
   (c2_grace_fires_once
      { side := Side.UP, marketSlug := some "btc-0940",
        contractSize := some 110, unrealizedPnl := some (-20) }
      { market := some { slug := some "btc-0940" } }
      { maxLossUsdPerTrade := some 15 }
      { breachAtMs := none, used := true } 0 (-20) 15 rfl rfl rfl rfl
      (by norm_num) (by norm_num) (by decide) (by decide)).2.1⟩

-- ─── C5: the entry gate collects all blockers ──────────────────────

/-- C5 (counterexample): an input that passes strict gating and resolves
a side, yet evaluation still returns early — the third hard early-out
(missing current-side Polymarket price).  The warmup condition fails
(`candleCount = 0 < 12`) but its blocker is not collected, refuting the
claim that after the two named early-outs every failing condition
appends its blocker. -/
theorem c5_counterexample :
    strictRecOf { } = false ∧
    (computeEntryBlockers
      { recOpt := some { action := some "ENTER", side := some Side.UP } }
      { } TradingState.init 0 0 { }).effectiveSide = some Side.UP ∧
    ((0:ℚ) < 12) ∧
    (computeEntryBlockers
      { recOpt := some { action := some "ENTER", side := some Side.UP } }
      { } TradingState.init 0 0 { }).blockers =
      [Blocker.missingPolyPrice] ∧
    Blocker.warmup 0 12 ∉
      (computeEntryBlockers
        { recOpt := some { action := some "ENTER", side := some Side.UP } }
        { } TradingState.init 0 0 { }).blockers := by
  refine ⟨rfl, rfl, by norm_num, rfl, ?_⟩
  rw [show (computeEntryBlockers
      { recOpt := some { action := some "ENTER", side := some Side.UP } }
      { } TradingState.init 0 0 { }).blockers =
      [Blocker.missingPolyPrice] from rfl]
  simp

/-- C5 (amended): the entry gate has exactly three hard early-outs —
missing recommendation under strict gating, missing resolvable side, and
missing current-side Polymarket price.  For every input that passes all
three, the result is the loose-mode note followed by the concatenation
of every remaining condition's blocker contribution in source order
(`entryChecks`): each failing condition appends its blocker and
evaluation runs to the end. -/
theorem c5_collects_all_blockers (signals : Signals) (config : Config)
    (state : TradingState) (candleCount nowMs : ℚ) (pt : PacificTime)
    (es : Side) (cp : ℚ)
    (h1 : (strictRecOf config &&
      decide (signals.recOpt.bind Rec.action ≠ some "ENTER")) = false)
    (h2 : (resolveSide signals (strictRecOf config)).1 = some es)
    (h3 : effectivePolyPrice signals es = some cp) :
    computeEntryBlockers signals config state candleCount nowMs pt =
      { blockers :=
          (if !strictRecOf config &&
              decide (signals.recOpt.bind Rec.action ≠ some "ENTER") then
            [Blocker.recLoose (signals.recOpt.bind Rec.action)]
          else []) ++
          entryChecks signals config state candleCount nowMs pt es cp
            (resolveSide signals (strictRecOf config)).2
            (strictRecOf config),
        effectiveSide := some es,
        sideInferred := (resolveSide signals (strictRecOf config)).2 } := by
  unfold computeEntryBlockers
  dsimp only
  rw [h1]
  simp only [h2, h3, Bool.false_eq_true, if_false]

/-- C5 witness: the amended statement at a concrete input (loose mode,
explicit side, resolvable prices). -/
theorem c5_collects_all_blockers_witness :
    computeEntryBlockers
      { recOpt := some { action := some "ENTER", side := some Side.UP },
        polyPricesCentsUp := some 50, polyPricesCentsDown := some 50 }
      { } TradingState.init 0 0 { } =
      { blockers :=
          (if !strictRecOf { } &&
              decide ((Signals.recOpt
                { recOpt := some
                    { action := some "ENTER", side := some Side.UP },
                  polyPricesCentsUp := some 50,
                  polyPricesCentsDown := some 50 }).bind Rec.action ≠
                some "ENTER") then
            [Blocker.recLoose ((Signals.recOpt
              { recOpt := some
                  { action := some "ENTER", side := some Side.UP },
                polyPricesCentsUp := some 50,
                polyPricesCentsDown := some 50 }).bind Rec.action)]
          else []) ++
          entryChecks
            { recOpt := some { action := some "ENTER", side := some Side.UP },
              polyPricesCentsUp := some 50, polyPricesCentsDown := some 50 }
            { } TradingState.init 0 0 { } Side.UP (50/100)
            (resolveSide
              { recOpt := some { action := some "ENTER", side := some Side.UP },
                polyPricesCentsUp := some 50,
                polyPricesCentsDown := some 50 } (strictRecOf { })).2
            (strictRecOf { }),
        effectiveSide := some Side.UP,
        sideInferred :=
          (resolveSide
            { recOpt := some { action := some "ENTER", side := some Side.UP },
              polyPricesCentsUp := some 50,
              polyPricesCentsDown := some 50 } (strictRecOf { })).2 } :=
  c5_collects_all_blockers _ { } TradingState.init 0 0 { } Side.UP
    (50/100) rfl rfl rfl

-- ─── C8: orderbook fill simulation ─────────────────────────────────

/-- Unfolding of `validLevel`. -/
theorem validLevel_iff (l : BookLevel) :
    validLevel l = true ↔ 0 < l.price ∧ 0 < l.size := by
  simp [validLevel]

/-- `validNotional` over a cons. -/
theorem validNotional_cons (l : BookLevel) (L : List BookLevel) :
    validNotional (l :: L) =
      (if validLevel l then l.price * l.size else 0) + validNotional L := by
  unfold validNotional
  by_cases h : validLevel l
  · simp [List.filter_cons, h]
  · simp [List.filter_cons, h]

/-- The available notional is nonnegative. -/
theorem validNotional_nonneg (L : List BookLevel) :
    0 ≤ validNotional L := by
  unfold validNotional
  apply List.sum_nonneg
  intro x hx
  rcases List.mem_map.mp hx with ⟨l, hl, rfl⟩
  have hv := (List.mem_filter.mp hl).2
  rcases (validLevel_iff l).mp hv with ⟨hp, hs⟩
  exact le_of_lt (mul_pos hp hs)

/-- A valid level's notional bounds the total from below. -/
theorem validNotional_pos (L : List BookLevel) (l : BookLevel)
    (hl : l ∈ L) (hv : validLevel l = true) : 0 < validNotional L := by
  rcases (validLevel_iff l).mp hv with ⟨hp, hs⟩
  have hmem : l.price * l.size ∈
      (L.filter validLevel).map (fun x => x.price * x.size) :=
    List.mem_map.mpr ⟨l, List.mem_filter.mpr ⟨hl, hv⟩, rfl⟩
  have hle := List.single_le_sum ?_ _ hmem
  · exact lt_of_lt_of_le (mul_pos hp hs) hle
  · intro x hx
    rcases List.mem_map.mp hx with ⟨y, hy, rfl⟩
    rcases (validLevel_iff y).mp (List.mem_filter.mp hy).2 with ⟨hp', hs'⟩
    exact le_of_lt (mul_pos hp' hs')

/-- An invalid level never changes the walk accumulator. -/
theorem fillStep_invalid (acc : FillState) (l : BookLevel)
    (h : validLevel l = false) : fillStep acc l = acc := by
  have hinv : l.price ≤ 0 ∨ l.size ≤ 0 := by
    rcases Bool.and_eq_false_iff.mp (by simpa [validLevel] using h) with
      h' | h'
    · left; simpa using of_decide_eq_false h'
    · right; simpa using of_decide_eq_false h'
  unfold fillStep
  by_cases hr : acc.remainingUsd ≤ 0
  · rw [if_pos hr]
  · rw [if_neg hr, if_pos hinv]

/-- A valid level with remaining notional consumes
`min(remaining, price × size)`. -/
theorem fillStep_valid (acc : FillState) (l : BookLevel)
    (hr : 0 < acc.remainingUsd) (hv : validLevel l = true) :
    fillStep acc l =
      { remainingUsd :=
          acc.remainingUsd - min acc.remainingUsd (l.price * l.size),
        totalShares := acc.totalShares +
          min acc.remainingUsd (l.price * l.size) / l.price,
        totalCost := acc.totalCost +
          min acc.remainingUsd (l.price * l.size),
        levelsConsumed := acc.levelsConsumed + 1 } := by
  rcases (validLevel_iff l).mp hv with ⟨hp, hs⟩
  unfold fillStep
  rw [if_neg (not_le.mpr hr),
    if_neg (not_or.mpr ⟨not_le.mpr hp, not_le.mpr hs⟩)]

/-- An exhausted accumulator is unchanged by any level. -/
theorem fillStep_exhausted (acc : FillState) (l : BookLevel)
    (hr : acc.remainingUsd ≤ 0) : fillStep acc l = acc := by
  unfold fillStep
  rw [if_pos hr]

/-- The waterfall identity on `min`. -/
theorem min_waterfall (r n v : ℚ) (hv : 0 ≤ v) :
    min r n + min (r - min r n) v = min r (n + v) := by
  rcases le_total r n with h | h
  · rw [min_eq_left h, sub_self, min_eq_left hv, add_zero,
      min_eq_left (le_trans h (le_add_of_nonneg_right hv))]
  · rw [min_eq_right h]
    rcases le_total (r - n) v with h2 | h2
    · rw [min_eq_left h2, min_eq_left (by linarith : r ≤ n + v)]
      ring
    · rw [min_eq_right h2, min_eq_right (by linarith : n + v ≤ r)]

/-- Characterization of the fill walk: starting from a nonnegative
remaining notional `r`, the walk adds exactly `min r (validNotional L)`
to the total cost, subtracts the same from the remaining notional, and
never decreases the total shares. -/
theorem walk_characterization (L : List BookLevel) :
    ∀ acc : FillState, 0 ≤ acc.remainingUsd →
      (L.foldl fillStep acc).totalCost =
        acc.totalCost + min acc.remainingUsd (validNotional L) ∧
      (L.foldl fillStep acc).remainingUsd =
        acc.remainingUsd - min acc.remainingUsd (validNotional L) ∧
      acc.totalShares ≤ (L.foldl fillStep acc).totalShares := by
  induction L with
  | nil =>
    intro acc hr
    simp [validNotional, min_eq_right hr]
  | cons l L ih =>
    intro acc hr
    rw [List.foldl_cons]
    cases hv : validLevel l with
    | false =>
      rw [fillStep_invalid acc l hv, validNotional_cons, hv]
      simpa using ih acc hr
    | true =>
      rcases lt_or_eq_of_le hr with hr0 | hr0
      · rcases (validLevel_iff l).mp hv with ⟨hp, hs⟩
        rw [fillStep_valid acc l hr0 hv]
        set n := l.price * l.size with hn
        have hmin_le : min acc.remainingUsd n ≤ acc.remainingUsd :=
          min_le_left _ _
        have hmin_nonneg : 0 ≤ min acc.remainingUsd n :=
          le_min hr (le_of_lt (mul_pos hp hs))
        have hrec := ih
          { remainingUsd := acc.remainingUsd - min acc.remainingUsd n,
            totalShares := acc.totalShares + min acc.remainingUsd n / l.price,
            totalCost := acc.totalCost + min acc.remainingUsd n,
            levelsConsumed := acc.levelsConsumed + 1 }
          (by dsimp; linarith)
        rcases hrec with ⟨hc, hrem, hsh⟩
        dsimp at hc hrem hsh
        refine ⟨?_, ?_, ?_⟩
        · rw [hc, validNotional_cons, hv]
          rw [add_assoc,
            min_waterfall _ _ _ (validNotional_nonneg L)]
          rfl
        · rw [hrem, validNotional_cons, hv]
          rw [sub_sub, min_waterfall _ _ _ (validNotional_nonneg L)]
          rfl
        · refine le_trans ?_ hsh
          have : 0 ≤ min acc.remainingUsd n / l.price :=
            div_nonneg hmin_nonneg (le_of_lt hp)
          linarith
      · have hzero : acc.remainingUsd = 0 := hr0.symm
        rw [fillStep_exhausted acc l (le_of_eq hzero)]
        rcases ih acc hr with ⟨hc, hrem, hsh⟩
        rw [hzero] at hc hrem ⊢
        simp only [min_eq_left (validNotional_nonneg L)] at hc hrem
        refine ⟨?_, ?_, hsh⟩
        · rw [hc, min_eq_left (validNotional_nonneg (l :: L))]
        · rw [hrem, min_eq_left (validNotional_nonneg (l :: L))]

/-- The walk fills a positive amount of shares as soon as the requested
notional is positive and some valid level exists. -/
theorem walk_shares_pos (L : List BookLevel) :
    ∀ acc : FillState, 0 < acc.remainingUsd →
      (∃ l ∈ L, validLevel l = true) →
      acc.totalShares < (L.foldl fillStep acc).totalShares := by
  induction L with
  | nil =>
    intro acc _ hex
    rcases hex with ⟨l, hl, _⟩
    exact absurd hl (List.not_mem_nil l)
  | cons l L ih =>
    intro acc hr hex
    rw [List.foldl_cons]
    cases hv : validLevel l with
    | false =>
      rw [fillStep_invalid acc l hv]
      rcases hex with ⟨l', hl', hv'⟩
      rcases List.mem_cons.mp hl' with rfl | hmem
      · rw [hv] at hv'; exact Bool.noConfusion hv'
      · exact ih acc hr ⟨l', hmem, hv'⟩
    | true =>
      rcases (validLevel_iff l).mp hv with ⟨hp, hs⟩
      rw [fillStep_valid acc l hr hv]
      have hminpos : 0 < min acc.remainingUsd (l.price * l.size) :=
        lt_min hr (mul_pos hp hs)
      have hstep : acc.totalShares < acc.totalShares +
          min acc.remainingUsd (l.price * l.size) / l.price := by
        have := div_pos hminpos hp
        linarith
      have hrest := (walk_characterization L
        { remainingUsd :=
            acc.remainingUsd - min acc.remainingUsd (l.price * l.size),
          totalShares := acc.totalShares +
            min acc.remainingUsd (l.price * l.size) / l.price,
          totalCost := acc.totalCost +
            min acc.remainingUsd (l.price * l.size),
          levelsConsumed := acc.levelsConsumed + 1 }
        (by dsimp; simp [sub_nonneg, min_le_left])).2.2
      dsimp at hrest
      exact lt_of_lt_of_le hstep hrest

/-- Sorting the levels permutes them. -/
theorem sortLevels_perm (direction : Direction) (L : List BookLevel) :
    (sortLevels direction L).Perm L := by
  cases direction <;> exact List.mergeSort_perm _ _

/-- The available notional is invariant under permutation. -/
theorem validNotional_perm {L1 L2 : List BookLevel} (h : L1.Perm L2) :
    validNotional L1 = validNotional L2 :=
  List.Perm.sum_eq ((h.filter validLevel).map fun l => l.price * l.size)

/-- A buy walks the ask ladder in ascending price order. -/
theorem sortLevels_sorted_buy (L : List BookLevel) :
    List.Pairwise (fun x y : BookLevel => x.price ≤ y.price)
      (sortLevels Direction.buy L) := by
  have h := @List.sorted_mergeSort BookLevel
    (fun a b : BookLevel => decide (a.price ≤ b.price))
    (fun a b c hab hbc => decide_eq_true
      (le_trans (of_decide_eq_true hab) (of_decide_eq_true hbc)))
    (fun a b => by
      rcases le_total a.price b.price with h | h <;> simp [h]) L
  exact h.imp fun hab => of_decide_eq_true hab

/-- A sell walks the bid ladder in descending price order. -/
theorem sortLevels_sorted_sell (L : List BookLevel) :
    List.Pairwise (fun x y : BookLevel => y.price ≤ x.price)
      (sortLevels Direction.sell L) := by
  have h := @List.sorted_mergeSort BookLevel
    (fun a b : BookLevel => decide (b.price ≤ a.price))
    (fun a b c hab hbc => decide_eq_true
      (le_trans (of_decide_eq_true hbc) (of_decide_eq_true hab)))
    (fun a b => by
      rcases le_total a.price b.price with h | h <;> simp [h]) L
  exact h.imp fun hab => of_decide_eq_true hab

/-- C8: for every orderbook whose walked side holds at least one valid
level (finite positive price and size) and every positive requested
notional, `_simulateFill` succeeds, walking the levels in sorted order
(asks ascending for a buy, bids descending for a sell) and returning
`vwapPrice = totalCost / totalShares` with a positive share total, where
the total cost spent is exactly
`min(requested notional, total valid notional available)` — the walk
stops when the notional is exhausted or the book runs out. -/
theorem c8_simulateFill_characterization (b : OrderBook)
    (direction : Direction) (notionalUsd : ℚ)
    (h1 : 0 < notionalUsd)
    (h2 : ∃ l ∈ sideLevels b direction, validLevel l = true) :
    simulateFill (some b) notionalUsd direction =
      some { vwapPrice :=
               (walkLevels (sortLevels direction (sideLevels b direction))
                 notionalUsd).totalCost /
               (walkLevels (sortLevels direction (sideLevels b direction))
                 notionalUsd).totalShares,
             totalShares :=
               (walkLevels (sortLevels direction (sideLevels b direction))
                 notionalUsd).totalShares,
             levelsConsumed :=
               (walkLevels (sortLevels direction (sideLevels b direction))
                 notionalUsd).levelsConsumed } ∧
    (walkLevels (sortLevels direction (sideLevels b direction))
      notionalUsd).totalCost =
      min notionalUsd (validNotional (sideLevels b direction)) ∧
    0 < (walkLevels (sortLevels direction (sideLevels b direction))
      notionalUsd).totalShares ∧
    (direction = Direction.buy →
      List.Pairwise (fun x y : BookLevel => x.price ≤ y.price)
        (sortLevels direction (sideLevels b direction))) ∧
    (direction = Direction.sell →
      List.Pairwise (fun x y : BookLevel => y.price ≤ x.price)
        (sortLevels direction (sideLevels b direction))) := by
  obtain ⟨l, hl, hv⟩ := h2
  have hperm := sortLevels_perm direction (sideLevels b direction)
  have hvn := validNotional_perm hperm
  have hmem : l ∈ sortLevels direction (sideLevels b direction) :=
    hperm.mem_iff.mpr hl
  have hchar := walk_characterization
    (sortLevels direction (sideLevels b direction))
    { remainingUsd := notionalUsd, totalShares := 0, totalCost := 0,
      levelsConsumed := 0 } (le_of_lt h1)
  have hcost :
      (walkLevels (sortLevels direction (sideLevels b direction))
        notionalUsd).totalCost =
        min notionalUsd (validNotional (sideLevels b direction)) := by
    have := hchar.1
    dsimp at this
    rw [zero_add] at this
    rw [show walkLevels (sortLevels direction (sideLevels b direction))
        notionalUsd =
        (sortLevels direction (sideLevels b direction)).foldl fillStep
          { remainingUsd := notionalUsd, totalShares := 0, totalCost := 0,
            levelsConsumed := 0 } from rfl, this, hvn]
  have hshares :
      0 < (walkLevels (sortLevels direction (sideLevels b direction))
        notionalUsd).totalShares := by
    have := walk_shares_pos
      (sortLevels direction (sideLevels b direction))
      { remainingUsd := notionalUsd, totalShares := 0, totalCost := 0,
        levelsConsumed := 0 } h1 ⟨l, hmem, hv⟩
    dsimp at this
    exact this
  have hcostpos :
      0 < (walkLevels (sortLevels direction (sideLevels b direction))
        notionalUsd).totalCost := by
    rw [hcost]
    exact lt_min h1 (validNotional_pos _ l hl hv)
  refine ⟨?_, hcost, hshares, fun hd => ?_, fun hd => ?_⟩
  · have hne : sideLevels b direction ≠ [] := by
      intro hnil
      rw [hnil] at hl
      exact List.not_mem_nil l hl
    have hempty : (sideLevels b direction).isEmpty = false := by
      cases hS : sideLevels b direction with
      | nil => exact absurd hS hne
      | cons x xs => rfl
    unfold simulateFill
    dsimp only
    rw [hempty]
    simp only [Bool.false_eq_true, if_false]
    rw [if_neg (not_or.mpr ⟨not_le.mpr hshares, not_le.mpr hcostpos⟩)]
  · rw [hd]
    exact sortLevels_sorted_buy _
  · rw [hd]
    exact sortLevels_sorted_sell _

/-- C8 witness: a one-level bid book, sell direction, notional 2. -/
theorem c8_simulateFill_witness :
    (walkLevels (sortLevels Direction.sell (sideLevels
      { asks := [], bids := [{ price := 2/5, size := 10 }] }
      Direction.sell)) 2).totalCost =
      min 2 (validNotional (sideLevels
        { asks := [], bids := [{ price := 2/5, size := 10 }] }
        Direction.sell)) ∧
    0 < (walkLevels (sortLevels Direction.sell (sideLevels
      { asks := [], bids := [{ price := 2/5, size := 10 }] }
      Direction.sell)) 2).totalShares :=
  ⟨(c8_simulateFill_characterization
      { asks := [], bids := [{ price := 2/5, size := 10 }] }
      Direction.sell 2 (by norm_num)
      ⟨{ price := 2/5, size := 10 }, by simp [sideLevels],
        by norm_num [validLevel]⟩).2.1,
   (c8_simulateFill_characterization
      { asks := [], bids := [{ price := 2/5, size := 10 }] }
      Direction.sell 2 (by norm_num)
      ⟨{ price := 2/5, size := 10 }, by simp [sideLevels],
        by norm_num [validLevel]⟩).2.2.1⟩
